import Mathlib

/-!
# Verification of the clixon schema-directed XML/JSON tree core

Shallow embedding of the YANG-aware configuration tree engine:
the child comparator, sort, binary search, insert position, match
(`clixon_xml_sort.c`) and the RFC 7951 JSON codec (`clixon_json.c`).

External collaborators (the cligen typed-value library, the YANG schema
accessors, the namespace-context helpers) are not part of the analysed
sources; they are modelled from the specification where a claim needs
them, and are marked as such.
-/

set_option autoImplicit false

namespace Clixon

/-- YANG statement keywords (`enum rfc_6020`), restricted to those the
analysed code dispatches on.  `yother` stands for every other keyword. -/
inductive Keyword where
  | ycontainer
  | yleaf
  | yleafList
  | ylist
  | yrpc
  | yinput
  | youtput
  | ychoice
  | ycase
  | yorderedBy
  | ymodule
  | yother
deriving DecidableEq, Repr

/-- cligen variable types (`enum cv_type`), restricted to those the JSON
encoder and the comparator dispatch on.  `cvErr` is `CGV_ERR`. -/
inductive CvType where
  | cvString
  | cvInt8 | cvInt16 | cvInt32 | cvInt64
  | cvUint8 | cvUint16 | cvUint32 | cvUint64
  | cvDec64
  | cvBool
  | cvErr
  | cvOther
deriving DecidableEq, Repr

/-- Modelled from the spec (§4.A): a cligen typed scalar value.  The cligen
library itself is an external collaborator; only the tagged-scalar shape is
needed here.  `dec` carries the decimal64 mantissa and fraction digits. -/
inductive Cv where
  | num (n : Int)
  | dec (n : Int) (fd : Nat)
  | str (s : String)
  | bool (b : Bool)
deriving DecidableEq, Repr

/-- Modelled from the spec (§4.A): `yang2cv_type`, mapping a resolved YANG
type name to a cligen type; unknown names map to a non-ERR generic type,
since only the names below get special treatment in the analysed code. -/
def yang2cv_type (restype : String) : CvType :=
  if restype = "string" then .cvString
  else if restype = "int8" then .cvInt8
  else if restype = "int16" then .cvInt16
  else if restype = "int32" then .cvInt32
  else if restype = "int64" then .cvInt64
  else if restype = "uint8" then .cvUint8
  else if restype = "uint16" then .cvUint16
  else if restype = "uint32" then .cvUint32
  else if restype = "uint64" then .cvUint64
  else if restype = "decimal64" then .cvDec64
  else if restype = "boolean" then .cvBool
  else if restype = "identityref" then .cvString
  else if restype = "enumeration" then .cvString
  else .cvOther

/-- Decimal digit value of a character, if it is a digit. -/
def digitVal (c : Char) : Option Nat :=
  if '0' ≤ c ∧ c ≤ '9' then some (c.toNat - '0'.toNat) else none

/-- Decimal digit-string value with an accumulator. -/
def digitsVal (acc : Nat) : List Char → Option Nat
  | [] => some acc
  | c :: rest =>
    match digitVal c with
    | some d => digitsVal (acc * 10 + d) rest
    | none => none

/-- Modelled from the spec (§4.A): parse a decimal integer string with
optional leading minus sign. -/
def strToInt (s : String) : Option Int :=
  match s.toList with
  | [] => none
  | '-' :: rest =>
    if rest = [] then none
    else (digitsVal 0 rest).map (fun n => -(n : Int))
  | l => (digitsVal 0 l).map (fun n => (n : Int))

/-- Modelled from the spec (§4.A): `cv_parse1`, parsing a leaf body string
into a typed scalar under a cligen type.  Integer kinds are range checked;
`decimal64` threads the fraction digits; booleans accept true and false. -/
def cv_parse1 (body : String) (t : CvType) (fd : Nat) : Option Cv :=
  let intIn (lo hi : Int) : Option Cv :=
    match strToInt body with
    | some n => if lo ≤ n ∧ n ≤ hi then some (.num n) else none
    | none => none
  match t with
  | .cvString => some (.str body)
  | .cvInt8 => intIn (-128) 127
  | .cvInt16 => intIn (-32768) 32767
  | .cvInt32 => intIn (-2147483648) 2147483647
  | .cvInt64 => intIn (-9223372036854775808) 9223372036854775807
  | .cvUint8 => intIn 0 255
  | .cvUint16 => intIn 0 65535
  | .cvUint32 => intIn 0 4294967295
  | .cvUint64 => intIn 0 18446744073709551615
  | .cvDec64 =>
    match strToInt body with
    | some n => some (.dec (n * (10 : Int) ^ fd) fd)
    | none => none
  | .cvBool =>
    if body = "true" then some (.bool true)
    else if body = "false" then some (.bool false)
    else none
  | .cvErr => none
  | .cvOther => some (.str body)

/-- Sign-valued string comparison standing for C `strcmp`: only the sign of
the result is ever used by the analysed code. -/
def strcmpInt (a b : String) : Int :=
  if a = b then 0 else if a < b then -1 else 1

/-- Modelled from the spec (§4.A): `cv_cmp`.  Numeric kinds compare
numerically, `decimal64` honours the fractional scale, booleans compare
false before true, strings compare by code point.  Values of different
kinds never meet under a shared YANG statement; that case returns 0. -/
def cv_cmp (a b : Cv) : Int :=
  match a, b with
  | .num n1, .num n2 => if n1 = n2 then 0 else if n1 < n2 then -1 else 1
  | .dec n1 f1, .dec n2 f2 =>
    let v1 := n1 * (10 : Int) ^ f2
    let v2 := n2 * (10 : Int) ^ f1
    if v1 = v2 then 0 else if v1 < v2 then -1 else 1
  | .str s1, .str s2 => strcmpInt s1 s2
  | .bool b1, .bool b2 =>
    match b1, b2 with
    | false, true => -1
    | true, false => 1
    | _, _ => 0
  | _, _ => 0

/-- A YANG statement (`yang_stmt`).  `order` is the statement's YANG order
index (`yang_order`), `config` its effective `config` flag (`yang_config`),
`keys` the cached key-name list of a `list` (`ys_cvec`), `restype` the
resolved type name from `yang_type_get` (none when type resolution fails),
`fraction` the decimal64 fraction digits, `modname` the name of the owning
module (`ys_real_module` / `yang_argument_get`). -/
inductive YangStmt where
  | mk (keyword : Keyword) (argument : String) (order : Nat) (config : Bool)
       (keys : List String) (restype : Option String) (fraction : Nat)
       (modname : String) (children : List YangStmt)

def YangStmt.keyword : YangStmt → Keyword
  | .mk k _ _ _ _ _ _ _ _ => k

def YangStmt.argument : YangStmt → String
  | .mk _ a _ _ _ _ _ _ _ => a

def YangStmt.order : YangStmt → Nat
  | .mk _ _ o _ _ _ _ _ _ => o

def YangStmt.config : YangStmt → Bool
  | .mk _ _ _ c _ _ _ _ _ => c

def YangStmt.keys : YangStmt → List String
  | .mk _ _ _ _ ks _ _ _ _ => ks

def YangStmt.restype : YangStmt → Option String
  | .mk _ _ _ _ _ r _ _ _ => r

def YangStmt.fraction : YangStmt → Nat
  | .mk _ _ _ _ _ _ f _ _ => f

def YangStmt.modname : YangStmt → String
  | .mk _ _ _ _ _ _ _ m _ => m

def YangStmt.children : YangStmt → List YangStmt
  | .mk _ _ _ _ _ _ _ _ cs => cs

/-- `yang_find(y, keyword, NULL)`: first child statement with the given
keyword (argument not filtered when the C caller passes NULL). -/
def yang_find (y : YangStmt) (k : Keyword) : Option YangStmt :=
  y.children.find? (fun c => c.keyword = k)

/-- `yang_find(y, Y_ORDERED_BY, "user") != NULL`: the statement carries
`ordered-by user`. -/
def yangOrderedByUser (y : YangStmt) : Bool :=
  y.children.any (fun c => c.keyword = .yorderedBy ∧ c.argument = "user")

/-- A keyword naming a YANG data node (spec glossary). -/
def isDataNode (k : Keyword) : Bool :=
  k = .ycontainer ∨ k = .yleaf ∨ k = .yleafList ∨ k = .ylist

theorem yangStmt_sizeOf_children_lt (c : YangStmt) : sizeOf c.children < sizeOf c := by
  cases c with
  | mk k a o cf ks r f m cs => simp [YangStmt.children]

/-- Modelled from the spec (§4.B rule 2): `yang_find_datanode`, searching a
statement list for a data node with the given argument, descending
transparently through `choice`/`case` wrappers.  The C function lives in
`clixon_yang.c`, outside the analysed sources. -/
def findDatanodeL (name : String) : List YangStmt → Option YangStmt
  | [] => none
  | c :: rest =>
    if c.keyword = .ychoice ∨ c.keyword = .ycase then
      match findDatanodeL name c.children with
      | some r => some r
      | none => findDatanodeL name rest
    else if isDataNode c.keyword ∧ c.argument = name then some c
    else findDatanodeL name rest
termination_by l => sizeOf l
decreasing_by
  all_goals simp_wf
  all_goals (have h := yangStmt_sizeOf_children_lt c; omega)

def yang_find_datanode (y : YangStmt) (name : String) : Option YangStmt :=
  findDatanodeL name y.children

/-- A keyword naming a YANG schema node (data nodes plus `rpc`,
`input`, `output`, and a transparent `choice`/`case` descent). -/
def isSchemaNode (k : Keyword) : Bool :=
  isDataNode k ∨ k = .yrpc ∨ k = .yinput ∨ k = .youtput

/-- Modelled from the spec (§4.B rule 3): `yang_find_schemanode`,
like `yang_find_datanode` but also finding `rpc`/`input`/`output`. -/
def findSchemanodeL (name : String) : List YangStmt → Option YangStmt
  | [] => none
  | c :: rest =>
    if c.keyword = .ychoice ∨ c.keyword = .ycase then
      match findSchemanodeL name c.children with
      | some r => some r
      | none => findSchemanodeL name rest
    else if isSchemaNode c.keyword ∧ c.argument = name then some c
    else findSchemanodeL name rest
termination_by l => sizeOf l
decreasing_by
  all_goals simp_wf
  all_goals (have h := yangStmt_sizeOf_children_lt c; omega)

def yang_find_schemanode (y : YangStmt) (name : String) : Option YangStmt :=
  findSchemanodeL name y.children

/-- XML node type (`enum cxobj_type`). -/
inductive XmlType where
  | elmnt
  | attr
  | body
deriving DecidableEq, Repr

/-- An XML node (`cxobj`).  `value` is the text of a body or attribute
node, `spec` the bound YANG statement (`xml_spec`), `cvCache` the cached
typed value (`xml_cv`).  Children keep insertion order. -/
inductive Xml where
  | mk (name : String) (pfx : Option String) (xtype : XmlType) (value : String)
       (children : List Xml) (spec : Option YangStmt) (cvCache : Option Cv)

def Xml.name : Xml → String
  | .mk n _ _ _ _ _ _ => n

def Xml.pfx : Xml → Option String
  | .mk _ p _ _ _ _ _ => p

def Xml.xtype : Xml → XmlType
  | .mk _ _ t _ _ _ _ => t

def Xml.value : Xml → String
  | .mk _ _ _ v _ _ _ => v

def Xml.children : Xml → List Xml
  | .mk _ _ _ _ cs _ _ => cs

def Xml.spec : Xml → Option YangStmt
  | .mk _ _ _ _ _ s _ => s

def Xml.cvCache : Xml → Option Cv
  | .mk _ _ _ _ _ _ c => c

/-- `xml_child_nr`. -/
def xml_child_nr (x : Xml) : Nat := x.children.length

/-- `xml_child_i` with a C `int` index: out-of-range yields none. -/
def childAtI (x : Xml) (i : Int) : Option Xml :=
  if 0 ≤ i then x.children[i.toNat]? else none

/-- `xml_child_nr_notype(x, CX_ATTR)`: children that are not attributes. -/
def notAttrNr (x : Xml) : Nat :=
  (x.children.filter (fun c => c.xtype ≠ XmlType.attr)).length

/-- `xml_body`: the value of the first body child, if any. -/
def xml_body (x : Xml) : Option String :=
  (x.children.find? (fun c => c.xtype = XmlType.body)).map Xml.value

/-- `xml_find`: first child with the given name. -/
def xml_find (x : Xml) (name : String) : Option Xml :=
  x.children.find? (fun c => c.name = name)

/-- `xml_find_body`: body of the first child with the given name. -/
def xml_find_body (x : Xml) (name : String) : Option String :=
  (xml_find x name).bind xml_body

/-- `xml_find_body_obj`: first child with the given name whose body equals
the given value. -/
def xml_find_body_obj (x : Xml) (name : String) (val : String) : Option Xml :=
  x.children.find? (fun c => c.name = name ∧ xml_body c = some val)

/-- `xml_find_type_value(x, NULL, "xmlns", CX_ATTR)`: value of the default
namespace attribute directly on the node. -/
def getXmlns (x : Xml) : Option String :=
  (x.children.find? (fun c =>
    c.xtype = XmlType.attr ∧ c.name = "xmlns" ∧ c.pfx = none)).map Xml.value

/-- `yang_order` applied to a node's spec; the C scans dereference the
spec without a NULL check, so an unbound node is given the out-of-band
order -1 (no real statement has it). -/
def nodeOrder (x : Xml) : Int :=
  match x.spec with
  | some y => (y.order : Int)
  | none => -1

/-- `xml_cv_cache` (from `clixon_xml_sort.c`): return the cached typed
value, or parse `body` under the resolved type of the node's YANG spec
(threading decimal64 fraction digits) and cache it.  A none result models
the C error return (no spec, unresolvable type, `CGV_ERR`, parse error);
the model keeps the function pure, which only drops the write-back of
the cache, not the value produced. -/
def xml_cv_cache (x : Xml) (body : String) : Option Cv :=
  match x.cvCache with
  | some cv => some cv
  | none =>
    match x.spec with
    | none => none
    | some y =>
      match y.restype with
      | none => none
      | some rt =>
        match yang2cv_type rt with
        | .cvErr => none
        | t => cv_parse1 body t y.fraction

/-- The key loop of `xml_cmp` for two `list` siblings: compare the string
bodies of each cached key in declared order; the first inequality decides.
The C code calls `strcmp` on the raw `xml_find_body` results and would
dereference NULL on a missing key (the tree invariant of §3 rules this
out); the model stops and reports equality there. -/
def listCmp (x1 x2 : Xml) : List String → Int
  | [] => 0
  | k :: rest =>
    match xml_find_body x1 k, xml_find_body x2 k with
    | some b1, some b2 =>
      let m := strcmpInt b1 b2
      if m ≠ 0 then m else listCmp x1 x2 rest
    | _, _ => 0

/-- `xml_cmp`, the qsort comparator over two sibling nodes.  An unbound
side compares equal.  Distinct statements compare by YANG order (the C
guards the order computation by pointer inequality `y1 != y2`; equal
statements have equal orders, so the guard is subsumed by the order
difference being nonzero).  State data and `ordered-by user` compare
equal; a shared `leaf-list` compares typed bodies with a missing body
smallest; a shared `list` compares key bodies in declared order. -/
def xml_cmp (x1 x2 : Xml) : Int :=
  match x1.spec, x2.spec with
  | none, _ => 0
  | some _, none => 0
  | some y1, some y2 =>
    let d : Int := (y1.order : Int) - (y2.order : Int)
    if d ≠ 0 then d
    else if y1.config = false ∨ yangOrderedByUser y1 then 0
    else
      match y1.keyword with
      | .yleafList =>
        match xml_body x1 with
        | none => -1
        | some b1 =>
          match xml_body x2 with
          | none => 1
          | some b2 =>
            match xml_cv_cache x1 b1, xml_cv_cache x2 b2 with
            | some cv1, some cv2 => cv_cmp cv1 cv2
            | _, _ => 0
      | .ylist => listCmp x1 x2 y1.keys
      | _ => 0

/-- Insert into a sorted list, keeping an element before the first element
it does not compare strictly greater than: together with `isortCmp` this
is a stable sort, the model of the C `qsort` call (the spec pins sort
stability in §5). -/
def insertCmp {α : Type} (cmp : α → α → Int) (a : α) : List α → List α
  | [] => [a]
  | b :: l => if cmp a b ≤ 0 then a :: b :: l else b :: insertCmp cmp a l

def isortCmp {α : Type} (cmp : α → α → Int) : List α → List α
  | [] => []
  | a :: l => insertCmp cmp a (isortCmp cmp l)

def Xml.withChildren : Xml → List Xml → Xml
  | .mk n p t v _ s c, cs => .mk n p t v cs s c

/-- `xml_sort`: abort (return 1, children untouched) when the node's own
statement is state data; otherwise sort the whole child vector with
`xml_cmp`.  The pair carries the C return value and the updated node. -/
def xml_sort (x : Xml) : Int × Xml :=
  match x.spec with
  | some ys =>
    if ys.config = false then (1, x)
    else (0, x.withChildren (isortCmp xml_cmp x.children))
  | none => (0, x.withChildren (isortCmp xml_cmp x.children))

/-- The adjacent-pair check of `xml_sort_verify`. -/
def sortedAdj : List Xml → Bool
  | [] => true
  | [_] => true
  | a :: b :: l => xml_cmp a b ≤ 0 ∧ sortedAdj (b :: l)

/-- `xml_sort_verify`: 1 when the node is state data (skip), 0 when every
adjacent pair of children is ordered by `xml_cmp`, -1 otherwise. -/
def xml_sort_verify (x0 : Xml) : Int :=
  match x0.spec with
  | some ys =>
    if ys.config = false then 1
    else if sortedAdj x0.children then 0 else -1
  | none => if sortedAdj x0.children then 0 else -1

/-- The key loop of `xml_cmp1` for keyword `list`: key names and query
values walk in parallel; a missing key body breaks out of the loop with
the match value accumulated so far, which is 0 (every earlier key
compared equal) — so a child missing a key is reported as matching. -/
def listKeyLoop (x : Xml) : List (String × String) → Int
  | [] => 0
  | (kn, kv) :: rest =>
    match xml_find_body x kn with
    | none => 0
    | some b =>
      let m := strcmpInt kv b
      if m ≠ 0 then m else listKeyLoop x rest

/-- `xml_cmp1`: compare one child against a search query.  Returns the
match value and the `userorder` out-parameter (set when the statement is
state data, or is a `leaf-list`/`list` with `ordered-by user`).  The C
only reads `y` under the `userorder` out-pointer, so an unbound spec is
accepted and yields a false flag.  For `leaf-list` the single query value
is `keyval[0]`; the C indexes it unconditionally (caller contract
`keynr == 1`), the model reports a mismatch when it is absent. -/
def xml_cmp1 (x : Xml) (y : Option YangStmt) (name : String) (keyword : Keyword)
    (keyvec keyval : List String) : Int × Bool :=
  let stateData : Bool := match y with
    | some yy => yy.config = false
    | none => false
  match keyword with
  | .ycontainer | .yleaf => (strcmpInt name x.name, stateData)
  | .yleafList =>
    let uo := stateData || (match y with
      | some yy => yangOrderedByUser yy
      | none => false)
    let m : Int := match xml_body x with
      | none => 1
      | some b =>
        match keyval.head? with
        | some v => strcmpInt v b
        | none => 1
    (m, uo)
  | .ylist =>
    let uo := stateData || (match y with
      | some yy => yangOrderedByUser yy
      | none => false)
    (listKeyLoop x (keyvec.zip keyval), uo)
  | _ => (0, stateData)

/-- Body of the two linear loops of `xml_search_userorder`: scan a sibling
list while the YANG order still equals the query order, returning the
first child whose `xml_cmp1` match value is 0. -/
def searchLinear (name : String) (yangi : Int) (keyword : Keyword)
    (keyvec keyval : List String) : List Xml → Option Xml
  | [] => none
  | xc :: rest =>
    if yangi ≠ nodeOrder xc then none
    else if (xml_cmp1 xc xc.spec name keyword keyvec keyval).1 = 0 then some xc
    else searchLinear name yangi keyword keyvec keyval rest

/-- `xml_search_userorder`: on a user-ordered run the binary-search
midpoint may miss; scan forward from `mid`+1, then backward from
`mid`-1, each bounded to the equal-order run. -/
def xml_search_userorder (x0 : Xml) (name : String) (yangi : Int) (mid : Nat)
    (keyword : Keyword) (keyvec keyval : List String) : Option Xml :=
  match searchLinear name yangi keyword keyvec keyval (x0.children.drop (mid + 1)) with
  | some xc => some xc
  | none => searchLinear name yangi keyword keyvec keyval ((x0.children.take mid).reverse)

theorem int_mid_bounds {low upper : Int} (h : low ≤ upper) :
    low ≤ (low + upper) / 2 ∧ (low + upper) / 2 ≤ upper := by
  constructor
  · have h1 : 2 * low ≤ low + upper := by omega
    have h2 : 2 * low / 2 ≤ (low + upper) / 2 :=
      Int.ediv_le_ediv (by norm_num) h1
    simpa [Int.mul_ediv_cancel_left low (two_ne_zero)] using h2
  · have h1 : low + upper ≤ 2 * upper := by omega
    have h2 : (low + upper) / 2 ≤ 2 * upper / 2 :=
      Int.ediv_le_ediv (by norm_num) h1
    simpa [Int.mul_ediv_cancel_left upper (two_ne_zero)] using h2

/-- `xml_search1`: binary search over the child vector on YANG order.
An empty interval misses; a midpoint beyond the vector misses; an
unbound midpoint misses; on an order hit the query predicate `xml_cmp1`
decides, with the user-order linear fallback when the predicate signals
`userorder` and did not match at the midpoint.  (`childAtI` returning
none can only happen at a negative midpoint, where the C reads out of
bounds; the model misses.) -/
def xml_search1 (x0 : Xml) (name : String) (yangi : Int) (keyword : Keyword)
    (keyvec keyval : List String) (low upper : Int) : Option Xml :=
  if upper < low then none
  else
    let mid := (low + upper) / 2
    if (xml_child_nr x0 : Int) ≤ mid then none
    else
      match childAtI x0 mid with
      | none => none
      | some xc =>
        match xc.spec with
        | none => none
        | some y =>
          let cmp0 : Int := yangi - (y.order : Int)
          if cmp0 = 0 then
            let mu := xml_cmp1 xc (some y) name keyword keyvec keyval
            if mu.2 ∧ mu.1 ≠ 0 then
              xml_search_userorder x0 name yangi mid.toNat keyword keyvec keyval
            else if mu.1 = 0 then some xc
            else if mu.1 < 0 then
              xml_search1 x0 name yangi keyword keyvec keyval low (mid - 1)
            else
              xml_search1 x0 name yangi keyword keyvec keyval (mid + 1) upper
          else if cmp0 < 0 then
            xml_search1 x0 name yangi keyword keyvec keyval low (mid - 1)
          else
            xml_search1 x0 name yangi keyword keyvec keyval (mid + 1) upper
termination_by (upper - low + 1).toNat
decreasing_by
  all_goals simp_wf
  all_goals
    have hb := int_mid_bounds (show low ≤ upper by omega)
    omega

/-- `xml_search`: the exported entry point searches the whole vector. -/
def xml_search (x0 : Xml) (name : String) (yangi : Int) (keyword : Keyword)
    (keyvec keyval : List String) : Option Xml :=
  xml_search1 x0 name yangi keyword keyvec keyval 0 (xml_child_nr x0)

/-- The forward scan of `xml_insert_pos` on a user-ordered hit over the
remaining sibling suffix: walk upward, remembering in `mid` the last
index whose element name equals `name`; stop at the first other name or
at the end of the vector, and return the remembered index. -/
def scanFwd (name : String) (mid i : Nat) : List Xml → Nat
  | [] => mid
  | xc :: rest => if xc.name ≠ name then mid else scanFwd name i (i + 1) rest

/-- The scan entered at index `i` of the child vector
(`for (i=mid+1; i<xml_child_nr(x0); i++)`). -/
def scanFwdPos (x0 : Xml) (name : String) (mid i : Nat) : Nat :=
  scanFwd name mid i (x0.children.drop i)

/-- `xml_insert_pos`: the binary search of the insertion position.  An
empty interval returns `low`; a midpoint beyond the vector returns the
vector length; on an order hit, a query flagged user-ordered scans
forward to the last consecutive same-name child and returns that index
(the caller inserts after the returned position).  The midpoint spec is
dereferenced without a NULL check in the C (`yang_order(y)`); an unbound
midpoint gets the out-of-band order -1 here, and a negative midpoint
(possible only from negative caller bounds, an out-of-bounds read in C)
returns `low`. -/
def xml_insert_pos (x0 : Xml) (name : String) (yangi : Int) (keyword : Keyword)
    (keyvec keyval : List String) (low upper : Int) : Int :=
  if upper < low then low
  else
    let mid := (low + upper) / 2
    if (xml_child_nr x0 : Int) ≤ mid then (xml_child_nr x0 : Int)
    else
      match childAtI x0 mid with
      | none => low
      | some xc =>
        let cmp0 : Int := yangi - nodeOrder xc
        if cmp0 = 0 then
          let mu := xml_cmp1 xc xc.spec name keyword keyvec keyval
          if mu.2 then (scanFwdPos x0 name mid.toNat (mid.toNat + 1) : Int)
          else if mu.1 = 0 then mid
          else if mu.1 < 0 then
            xml_insert_pos x0 name yangi keyword keyvec keyval low (mid - 1)
          else
            xml_insert_pos x0 name yangi keyword keyvec keyval (mid + 1) upper
        else if cmp0 < 0 then
          xml_insert_pos x0 name yangi keyword keyvec keyval low (mid - 1)
        else
          xml_insert_pos x0 name yangi keyword keyvec keyval (mid + 1) upper
termination_by (upper - low + 1).toNat
decreasing_by
  all_goals simp_wf
  all_goals
    have hb := int_mid_bounds (show low ≤ upper by omega)
    omega

/-- The inner key loop of `xml_match` for keyword `list`: a child matches
when every (key name, key value) pair finds an equal body; a missing key
body or an unequal value rejects the child. -/
def matchListKeys (x : Xml) : List (String × String) → Bool
  | [] => true
  | (kn, kv) :: rest =>
    match xml_find_body x kn with
    | none => false
    | some b0 => if b0 = kv then matchListKeys x rest else false

/-- `xml_match`: the linear matcher used when the base tree is not
schema-bound.  `container`/`leaf` with a nonempty key vector report an
EINVAL error and return no child; `leaf-list` requires exactly one key
and matches name plus body; `list` scans the element children for one
whose every key body equals the query.  (`keynr` is the C length
argument; the key vectors are read through it.) -/
def xml_match (x0 : Xml) (name : String) (keyword : Keyword) (keynr : Nat)
    (keyvec keyval : List String) : Option Xml :=
  match keyword with
  | .ycontainer | .yleaf =>
    if keynr ≠ 0 then none
    else xml_find x0 name
  | .yleafList =>
    if keynr ≠ 1 then none
    else
      match keyval.head? with
      | some v => xml_find_body_obj x0 name v
      | none => none
  | .ylist =>
    x0.children.find? (fun x =>
      x.xtype = XmlType.elmnt ∧ x.name = name ∧
      ((keyvec.zip keyval).take keynr ≠ [] ∧
        matchListKeys x ((keyvec.zip keyval).take keynr)))
  | _ => none

/-- The environment of `xml_child_spec` that lives outside the analysed
sources: `ys_module_by_xml` (resolve the owning module of a top-level
element from its XML namespace) and `xml_yang_find_non_strict` (the
non-strict fallback matching on argument name across modules). -/
structure ResolverEnv where
  modByXml : Option Xml → Option YangStmt
  findNonStrict : Xml → Option YangStmt

/-- The statement search of `xml_child_spec` before the rpc→input kludge:
a bound rpc parent searches the data nodes of its `input` sub-statement;
any other bound parent searches its own data nodes; an unbound parent
resolves the module from the XML namespace and searches its schema
nodes, with the non-strict fallback when enabled. -/
def xml_child_spec0 (env : ResolverEnv) (nsStrict : Bool) (x : Xml)
    (xp : Option Xml) (hasSpec : Bool) : Option YangStmt :=
  match xp with
  | some xpp =>
    match xpp.spec with
    | some yparent =>
      if yparent.keyword = .yrpc then
        match yang_find yparent .yinput with
        | some yi => yang_find_datanode yi x.name
        | none => none
      else yang_find_datanode yparent x.name
    | none => topSearch
  | none => topSearch
where
  topSearch : Option YangStmt :=
    if hasSpec then
      let y0 :=
        match (env.modByXml xp) with
        | some ymod => yang_find_schemanode ymod x.name
        | none => none
      match y0 with
      | some y => some y
      | none => if nsStrict then none else env.findNonStrict x
    else none

/-- The rpc→input kludge at the end of `xml_child_spec`: a resolved rpc
statement that has an `input` sub-statement resolves to that `input`. -/
def rpcInputFix (y : Option YangStmt) : Option YangStmt :=
  match y with
  | some yy =>
    if yy.keyword = .yrpc then
      match yang_find yy .yinput with
      | some yi => some yi
      | none => some yy
    else some yy
  | none => none

/-- `xml_child_spec`: resolve the YANG statement governing child `x`
under parent `xp` (`hasSpec` models a non-NULL `yspec` argument). -/
def xml_child_spec (env : ResolverEnv) (nsStrict : Bool) (x : Xml)
    (xp : Option Xml) (hasSpec : Bool) : Option YangStmt :=
  rpcInputFix (xml_child_spec0 env nsStrict x xp hasSpec)

/-! ## JSON codec (`clixon_json.c`) -/

/-- `enum childtype`. -/
inductive ChildType where
  | nullChild
  | bodyChild
  | anyChild
  | na
deriving DecidableEq, Repr

/-- `enum array_element_type`. -/
inductive ArrayType where
  | noArray
  | firstArray
  | middleArray
  | lastArray
  | singleArray
  | bodyArray
deriving DecidableEq, Repr

def childtype2str : ChildType → String
  | .nullChild => "null"
  | .bodyChild => "body"
  | .anyChild => "any"
  | .na => ""

def arraytype2str : ArrayType → String
  | .noArray => "no"
  | .firstArray => "first"
  | .middleArray => "middle"
  | .lastArray => "last"
  | .singleArray => "single"
  | .bodyArray => "body"

/-- `child_type`: classify a node by its non-attribute children (none,
exactly one body, anything else).  The C returns -1 and -2 on non-element
input; `na` stands for both (they take the same default branches). -/
def child_type (x : Xml) : ChildType :=
  let clen := notAttrNr x
  if x.xtype ≠ XmlType.elmnt then .na
  else if clen = 0 then .nullChild
  else if 1 < clen then .anyChild
  else
    match x.children.find? (fun c => c.xtype ≠ XmlType.attr) with
    | none => .na
    | some xc =>
      if notAttrNr xc = 0 ∧ xc.xtype = XmlType.body then .bodyChild
      else .anyChild

/-- The namespace comparison of `array_eval`: both absent, or both
present and equal. -/
def nsMatch (a b : Option String) : Bool :=
  match a, b with
  | none, none => true
  | some s1, some s2 => s1 = s2
  | _, _ => false

/-- The neighbour test of `array_eval`: an element neighbour of the same
name whose `xmlns` value matches. -/
def neighborEq (x : Xml) (n : Option Xml) : Bool :=
  match n with
  | some xn =>
    xn.xtype = XmlType.elmnt ∧ x.name = xn.name ∧
      nsMatch (getXmlns x) (getXmlns xn)
  | none => false

/-- `array_eval`: classify the array position of `x` among its raw
neighbours.  A non-element is a body; equality with a neighbour needs an
element of the same name under a matching `xmlns` value; with no equal
neighbour, only a bound `list` statement yields the one-element array. -/
def array_eval (xprev : Option Xml) (x : Xml) (xnext : Option Xml) : ArrayType :=
  if x.xtype ≠ XmlType.elmnt then .bodyArray
  else
    let eqnext := neighborEq x xnext
    let eqprev := neighborEq x xprev
    if eqprev ∧ eqnext then .middleArray
    else if eqprev then .lastArray
    else if eqnext then .firstArray
    else
      match x.spec with
      | some ys => if ys.keyword = .ylist then .singleArray else .noArray
      | none => .noArray

/-- Leading-segment test on character lists (C `strncmp` == 0). -/
def leadMatch : List Char → List Char → Bool
  | [], _ => true
  | _ :: _, [] => false
  | p :: ps, c :: cs => p = c ∧ leadMatch ps cs

/-- `json_str_escape_cdata`: JSON-escape a string while unwrapping XML
CDATA sections (`esc` is the inside-CDATA state). -/
def json_str_escape_cdata (esc : Bool) (l : List Char) : String :=
  match l with
  | [] => ""
  | c :: r =>
    if c = '\n' then "\\n" ++ json_str_escape_cdata esc r
    else if c = '"' then "\\\"" ++ json_str_escape_cdata esc r
    else if c = '\\' then "\\\\" ++ json_str_escape_cdata esc r
    else if c = '<' then
      if ¬esc ∧ leadMatch "![CDATA[".toList r then
        json_str_escape_cdata true (r.drop 8)
      else String.singleton c ++ json_str_escape_cdata esc r
    else if c = ']' then
      if esc ∧ leadMatch "]>".toList r then
        json_str_escape_cdata false (r.drop 2)
      else String.singleton c ++ json_str_escape_cdata esc r
    else String.singleton c ++ json_str_escape_cdata esc r
termination_by l.length
decreasing_by
  all_goals simp_wf
  all_goals omega

/-- `yang_type2cv`: the cligen type of a statement's resolved type
(`CGV_ERR` when resolution failed). -/
def yang_type2cv (y : YangStmt) : CvType :=
  match y.restype with
  | some rt => yang2cv_type rt
  | none => .cvErr

/-- The codec collaborators outside the analysed sources:
`xml2json_encode_identityref` resolves the identity's namespace through
`xml2ns` and the module tables, none of which are in the sources; the
encoder consults it only for `identityref`-typed leaves. -/
structure CodecEnv where
  encIdentityref : Xml → String → YangStmt → String

/-- Quote-and-escape step of `xml2json_encode` (the `quote` path). -/
def jsonQuote (s : String) : String :=
  "\"" ++ json_str_escape_cdata false s.toList ++ "\""

/-- `xml2json_encode`: encode a body node under its parent's statement.
No parent statement: the raw body, quoted.  A `leaf`/`leaf-list` parent
encodes by the cligen type of its resolved type: strings are quoted
(with `identityref` rewritten first), the integer, decimal64 and boolean
kinds are emitted unquoted, everything else is quoted. -/
def xml2json_encode (env : CodecEnv) (xb : Xml) (yp : Option YangStmt) : String :=
  let body := xb.value
  match yp with
  | none => jsonQuote body
  | some ypp =>
    match ypp.keyword with
    | .yleaf | .yleafList =>
      match yang_type2cv ypp with
      | .cvString =>
        if ypp.restype = some "identityref" then
          jsonQuote (env.encIdentityref xb body ypp)
        else jsonQuote body
      | .cvInt8 | .cvInt16 | .cvInt32 | .cvInt64
      | .cvUint8 | .cvUint16 | .cvUint32 | .cvUint64
      | .cvDec64 | .cvBool => body
      | _ => jsonQuote body
    | _ => jsonQuote body

/-- `%*s` indentation: `pretty ? level*JSON_INDENT : 0` spaces. -/
def jIndent (pretty level : Nat) : String :=
  if pretty ≠ 0 then String.mk (List.replicate (level * 2) ' ') else ""

/-- `pretty ? "\n" : ""`. -/
def jNl (pretty : Nat) : String :=
  if pretty ≠ 0 then "\n" else ""

/-- The member label `"mod:name":` with optional indentation and the
pretty-mode trailing space. -/
def memberLabel (pretty level : Nat) (modname : Option String) (name : String) :
    String :=
  jIndent pretty level ++ "\"" ++
    (match modname with
     | some m => m ++ ":"
     | none => "") ++
    name ++ "\":" ++ (if pretty ≠ 0 then " " else "")

/-- The `pretty==2` debug tag printed before the emission switch. -/
def dbgStr (pretty : Nat) (a : ArrayType) (ct : ChildType) : String :=
  if pretty = 2 then "#" ++ arraytype2str a ++ "_array, " ++ childtype2str ct ++ "_child "
  else ""

/-- The module-prefix bookkeeping at the head of `xml2json1_cbuf`: the
emitted prefix (none when the node's module equals the ancestor module)
and the ancestor module passed on to the children. -/
def modnamePass (ys : Option YangStmt) (modname0 : Option String) :
    Option String × Option String :=
  match ys with
  | some y =>
    if modname0 = some y.modname then (none, modname0)
    else (some y.modname, some y.modname)
  | none => (none, modname0)

theorem xml_sizeOf_children_lt (x : Xml) : sizeOf x.children < sizeOf x := by
  cases x with
  | mk n p t v cs s c =>
    simp [Xml.children]
    omega

mutual

/-- `xml2json1_cbuf`: emit one node as JSON.  `arraytype` is the node's
array position among its siblings, `yparent` the statement bound to its
parent (the C reads it through `xml_parent` inside `xml2json_encode`).
The emission follows the C matrix: a prefix keyed on array position and
child kind, the recursive emission of the non-attribute children with
comma separation, and a closing suffix. -/
def xml2json1_cbuf (env : CodecEnv) (x : Xml) (arraytype : ArrayType)
    (level : Nat) (pretty : Nat) (flat : Bool) (modname0 : Option String)
    (yparent : Option YangStmt) : String :=
  let mm := modnamePass x.spec modname0
  let childt := child_type x
  let lvl1 :=
    match arraytype with
    | .noArray | .bodyArray => level
    | _ => level + 1
  let pre :=
    match arraytype with
    | .bodyArray => xml2json_encode env x yparent
    | .noArray =>
      (if flat then "" else memberLabel pretty level mm.1 x.name) ++
      (match childt with
       | .nullChild =>
         match x.spec with
         | some ys =>
           if ys.keyword = .ycontainer then "\x7b\x7d"
           else if ys.keyword = .yleaf ∨ ys.keyword = .yleafList then "[null]"
           else "null"
         | none => "null"
       | .bodyChild => ""
       | .anyChild => "\x7b" ++ jNl pretty
       | .na => "")
    | .firstArray | .singleArray =>
      memberLabel pretty level mm.1 x.name ++
      "[" ++ jNl pretty ++ jIndent pretty lvl1 ++
      (match childt with
       | .nullChild => "null"
       | .bodyChild => ""
       | .anyChild => "\x7b" ++ jNl pretty
       | .na => "")
    | .middleArray | .lastArray =>
      jIndent pretty lvl1 ++
      (match childt with
       | .nullChild => "null"
       | .bodyChild => ""
       | .anyChild => "\x7b" ++ jNl pretty
       | .na => "")
  let inner :=
    emitChildren env x.spec none x.children ((notAttrNr x : Int) - 1)
      (lvl1 + 1) pretty mm.2
  let suf :=
    match arraytype with
    | .bodyArray => ""
    | .noArray =>
      match childt with
      | .anyChild => jNl pretty ++ jIndent pretty lvl1 ++ "\x7d"
      | _ => ""
    | .firstArray | .middleArray =>
      match childt with
      | .anyChild => jNl pretty ++ jIndent pretty lvl1 ++ "\x7d"
      | _ => ""
    | .singleArray | .lastArray =>
      match childt with
      | .nullChild | .bodyChild => jNl pretty ++ jIndent pretty lvl1 ++ "]"
      | .anyChild =>
        jNl pretty ++ jIndent pretty lvl1 ++ "\x7d" ++ jNl pretty ++
          jIndent pretty (lvl1 - 1) ++ "]"
      | .na => jIndent pretty lvl1 ++ "]"
  dbgStr pretty arraytype childt ++ pre ++ inner ++ suf
termination_by sizeOf x
decreasing_by
  all_goals simp_wf
  all_goals (have h := xml_sizeOf_children_lt x; omega)

/-- The child loop of `xml2json1_cbuf`: skip attributes, classify each
element or body against its raw neighbours, emit it, and separate the
first `commas` non-attribute children by commas. -/
def emitChildren (env : CodecEnv) (pspec : Option YangStmt) (prev : Option Xml)
    (cs : List Xml) (commas : Int) (childLevel : Nat) (pretty : Nat)
    (mod0 : Option String) : String :=
  match cs with
  | [] => ""
  | c :: rest =>
    if c.xtype = XmlType.attr then
      emitChildren env pspec (some c) rest commas childLevel pretty mod0
    else
      let a1 := array_eval prev c rest.head?
      let s := xml2json1_cbuf env c a1 childLevel pretty false mod0 pspec
      if commas > 0 then
        s ++ "," ++ jNl pretty ++
          emitChildren env pspec (some c) rest (commas - 1) childLevel pretty mod0
      else
        s ++ emitChildren env pspec (some c) rest commas childLevel pretty mod0
termination_by sizeOf cs
decreasing_by
  all_goals simp_wf
  all_goals omega

end

/-- `xml2json_cbuf`: the exported XML→JSON translation, wrapping the
node's emission in a top-level object. -/
def xml2json_cbuf (env : CodecEnv) (x : Xml) (pretty : Nat) : String :=
  jIndent pretty 0 ++ "\x7b" ++ jNl pretty ++
    xml2json1_cbuf env x .noArray 1 pretty false none none ++
    jNl pretty ++ jIndent pretty 0 ++ "\x7d" ++ jNl pretty

/-! ## JSON decoding (`_json_parse` and helpers) -/

/-- A YANG module as the decoder sees it: a name and a namespace URI. -/
structure YangModule where
  name : String
  ns : String
deriving DecidableEq, Repr

/-- The schema forest root, supporting module lookup by name (§6). -/
structure YangSpec where
  modules : List YangModule
deriving DecidableEq, Repr

/-- `yang_find_module_by_name`: module lookup by module name; a NULL
spec finds nothing. -/
def yang_find_module_by_name (yspec : Option YangSpec) (m : String) :
    Option YangModule :=
  match yspec with
  | some s => s.modules.find? (fun md => md.name = m)
  | none => none

/-- The errors the decoder reports through `xerr` (netconf error
payloads built by `clixon_netconf_lib.c`). -/
inductive JErr where
  | malformedMessage (msg : String)
  | unknownNamespace (id : String) (msg : String)
  | populateFailed
deriving DecidableEq, Repr

def Xml.withPfx : Xml → Option String → Xml
  | .mk n _ t v cs s c, p => .mk n p t v cs s c

/-- Replace the value of the first default `xmlns` attribute, or append
one when there is none. -/
def setXmlnsAttr (ns : String) : List Xml → List Xml
  | [] => [Xml.mk "xmlns" none XmlType.attr ns [] none none]
  | c :: rest =>
    if c.xtype = XmlType.attr ∧ c.name = "xmlns" ∧ c.pfx = none then
      Xml.mk c.name c.pfx c.xtype ns c.children c.spec c.cvCache :: rest
    else c :: setXmlnsAttr ns rest

/-- Modelled from the spec (§4.H primitive (b) and §4.G decode step 3):
`xml_namespace_change(x, namespace, NULL)` — make the element carry the
namespace as its default namespace, rewriting a conflicting default
`xmlns` attribute, and clear the element's prefix.  The C function lives
in `clixon_xml_nsctx.c`, outside the analysed sources. -/
def xml_namespace_change (x : Xml) (ns : String) : Xml :=
  (x.withChildren (setXmlnsAttr ns x.children)).withPfx none

theorem Xml.sizeOf_withChildren (x : Xml) (cs : List Xml) :
    sizeOf (x.withChildren cs) ≤ 1 + sizeOf cs + sizeOf x := by
  cases x with
  | mk n p t v cs0 s c => simp [Xml.withChildren]; omega

mutual

/-- `json_xmlns_translate` (from `clixon_json.c`): interpret each
prefix as a module name, look the module up, and move the element to
the module's namespace; recurse through the element children.  An
unknown module is the RFC 7951 unknown-namespace failure.  The C
changes the namespace before recursing; the namespace change touches
only attribute children and the recursion only element children, so
the two commute and the model recurses first. -/
def json_xmlns_translate (yspec : Option YangSpec) (x : Xml) :
    Except JErr Xml :=
  let nsRes : Except JErr (Option String) :=
    match x.pfx with
    | some modname =>
      match yang_find_module_by_name yspec modname with
      | none =>
        Except.error (JErr.unknownNamespace modname
          "No yang module found corresponding to prefix")
      | some ymod => Except.ok (some ymod.ns)
    | none => Except.ok none
  match nsRes with
  | .error e => .error e
  | .ok nsOpt =>
    match translateL yspec x.children with
    | .error e => .error e
    | .ok cs =>
      let x1 := x.withChildren cs
      match nsOpt with
      | some ns => .ok (xml_namespace_change x1 ns)
      | none => .ok x1
termination_by sizeOf x
decreasing_by
  simp_wf
  have h1 := xml_sizeOf_children_lt x
  omega

/-- The element-child recursion of `json_xmlns_translate`
(`xml_child_each(x, xc, CX_ELMNT)`). -/
def translateL (yspec : Option YangSpec) (l : List Xml) :
    Except JErr (List Xml) :=
  match l with
  | [] => .ok []
  | c :: rest =>
    if c.xtype = XmlType.elmnt then
      match json_xmlns_translate yspec c with
      | .error e => .error e
      | .ok c1 =>
        match translateL yspec rest with
        | .error e => .error e
        | .ok rest1 => .ok (c1 :: rest1)
    else
      match translateL yspec rest with
      | .error e => .error e
      | .ok rest1 => .ok (c :: rest1)
termination_by sizeOf l
decreasing_by
  all_goals simp_wf
  all_goals omega

end

/-- The collaborators of the decoding pipeline that live outside the
analysed sources: the identityref body rewriting
(`json2xml_decode_identityref` depends on `xml_nsctx_node` and the
module tables) and the two yang-binding passes
(`xml_spec_populate0_parent` / `xml_spec_populate0`); each binding pass
reports whether the tree bound cleanly.  Infrastructure failures
(allocation) are outside the model (§7). -/
structure ParseEnv where
  decodeIdentityref : Xml → Except JErr Xml
  populateParent : Xml → Bool × Xml
  populateTop : Xml → Bool × Xml

mutual

/-- `json2xml_decode` (from `clixon_json.c`): after parsing and yang
binding, rewrite `identityref` leaf bodies from `module:id` form to a
prefixed XML form (`empty`-typed leaves need nothing); recurse through
element children.  The C rewrites the node before recursing; the
rewrite touches only the body and attribute children and the recursion
only element children, so the model recurses first. -/
def json2xml_decode (env : ParseEnv) (x : Xml) : Except JErr Xml :=
  match decodeL env x.children with
  | .error e => .error e
  | .ok cs =>
    let x1 := x.withChildren cs
    match x1.spec with
    | some y =>
      if y.keyword = .yleaf ∨ y.keyword = .yleafList then
        match y.restype with
        | some rt =>
          if rt = "identityref" then env.decodeIdentityref x1
          else Except.ok x1
        | none => Except.ok x1
      else Except.ok x1
    | none => Except.ok x1
termination_by sizeOf x
decreasing_by
  simp_wf
  have h1 := xml_sizeOf_children_lt x
  omega

/-- The element-child recursion of `json2xml_decode`. -/
def decodeL (env : ParseEnv) (l : List Xml) : Except JErr (List Xml) :=
  match l with
  | [] => .ok []
  | c :: rest =>
    if c.xtype = XmlType.elmnt then
      match json2xml_decode env c with
      | .error e => .error e
      | .ok c1 =>
        match decodeL env rest with
        | .error e => .error e
        | .ok rest1 => .ok (c1 :: rest1)
    else
      match decodeL env rest with
      | .error e => .error e
      | .ok rest1 => .ok (c :: rest1)
termination_by sizeOf l
decreasing_by
  all_goals simp_wf
  all_goals omega

end

/-- `enum yang_bind`. -/
inductive YangBind where
  | ybRpc
  | ybUnknown
  | ybNone
  | ybParent
  | ybTop
deriving DecidableEq, Repr

theorem sizeOf_insertCmp {α : Type} [SizeOf α] (cmp : α → α → Int) (a : α)
    (l : List α) : sizeOf (insertCmp cmp a l) = 1 + sizeOf a + sizeOf l := by
  induction l with
  | nil => simp [insertCmp]
  | cons b t ih =>
    simp only [insertCmp]
    split
    · simp
    · simp [ih]; omega

theorem sizeOf_isortCmp {α : Type} [SizeOf α] (cmp : α → α → Int)
    (l : List α) : sizeOf (isortCmp cmp l) = sizeOf l := by
  induction l with
  | nil => simp [isortCmp]
  | cons a t ih => simp [isortCmp, sizeOf_insertCmp, ih]

theorem sizeOf_xml_sort_children (x : Xml) :
    sizeOf ((xml_sort x).2).children = sizeOf x.children := by
  cases x with
  | mk n p t v cs s c =>
    cases s with
    | none =>
      simp [xml_sort, Xml.spec, Xml.withChildren, Xml.children, sizeOf_isortCmp]
    | some ys =>
      by_cases hc : ys.config = false
      · simp [xml_sort, Xml.spec, hc, Xml.children]
      · simp [xml_sort, Xml.spec, hc, Xml.withChildren, Xml.children,
          sizeOf_isortCmp]

/-- `xml_apply0(xt, CX_ELMNT, xml_sort, NULL)`: apply `xml_sort` to the
node and recursively to its element descendants; a node where the sort
aborts (state data, return 1) keeps its subtree untouched. -/
def applySortAll (x : Xml) : Xml :=
  if (xml_sort x).1 = 1 then (xml_sort x).2
  else
    let x1 := (xml_sort x).2
    x1.withChildren (x1.children.attach.map (fun c =>
      if c.1.xtype = XmlType.elmnt then applySortAll c.1 else c.1))
termination_by sizeOf x
decreasing_by
  simp_wf
  have h1 : sizeOf c.1 < sizeOf ((xml_sort x).2).children :=
    List.sizeOf_lt_of_mem c.2
  have h2 := sizeOf_xml_sort_children x
  have h3 := xml_sizeOf_children_lt x
  omega

/-- The outcome of `_json_parse`: a valid tree (retval 1) or an invalid
input with the error report (retval 0).  Fatal infrastructure outcomes
(retval -1) are outside the model (§7). -/
inductive JResult where
  | valid (xt : Xml)
  | invalid (e : JErr)

/-- The per-member loop of `_json_parse` over the newly parsed top-level
objects: the RFC 7951 §4 qualifier check, the module→namespace
translation, the yang binding pass selected by `yb` (a failed
`YB_PARENT` binding counts in `failed`; the C checks the stale `ret` of
the translation after a `YB_TOP` binding, so that failure is not
counted), and the identityref decoding. -/
def bindStep (env : ParseEnv) (yb : YangBind) (x1 : Xml) (failed : Nat) :
    Xml × Nat :=
  match yb with
  | .ybParent =>
    let pr := env.populateParent x1
    (pr.2, if pr.1 then failed else failed + 1)
  | .ybTop =>
    let pr := env.populateTop x1
    (pr.2, failed)
  | _ => (x1, failed)

def jsonParseLoop (env : ParseEnv) (yspec : Option YangSpec) (yb : YangBind) :
    List Xml → Nat → Except JErr (List Xml × Nat)
  | [], failed => .ok ([], failed)
  | x :: rest, failed =>
    if yspec.isSome ∧ x.pfx = none then
      .error (.malformedMessage ("Top-level JSON object " ++ x.name ++
        " is not qualified with namespace which is a MUST according to RFC 7951"))
    else
      match json_xmlns_translate yspec x with
      | .error e => .error e
      | .ok x1 =>
        let bound := bindStep env yb x1 failed
        match json2xml_decode env bound.1 with
        | .error e => .error e
        | .ok x2 =>
          match jsonParseLoop env yspec yb rest bound.2 with
          | .error e => .error e
          | .ok (rest1, failed1) => .ok (x2 :: rest1, failed1)

/-- `_json_parse` after the yacc pass: process each parsed top-level
object, sort the resulting tree, and report valid exactly when nothing
failed.  `xvec` models `jy_xvec`, the new objects the parser attached
under the top node. -/
def _json_parse (env : ParseEnv) (yspec : Option YangSpec) (yb : YangBind)
    (xvec : List Xml) : JResult :=
  match jsonParseLoop env yspec yb xvec 0 with
  | .error e => .invalid e
  | .ok (xs, failed) =>
    let xt := Xml.mk "top" none XmlType.elmnt "" xs none none
    if failed = 0 then .valid (applySortAll xt) else .invalid .populateFailed

/-! ## Search soundness: what a returned child satisfies -/

theorem strcmpInt_eq_zero {a b : String} : strcmpInt a b = 0 ↔ a = b := by
  unfold strcmpInt
  split
  · simp_all
  · split <;> simp_all

/-- The `list` part of the match predicate the search actually
implements: key bodies equal in declared order, where a missing key
body ends the scan as a match. -/
def listKeysChk (xc : Xml) : List (String × String) → Bool
  | [] => true
  | (kn, kv) :: rest =>
    match xml_find_body xc kn with
    | none => true
    | some b => kv = b && listKeysChk xc rest

/-- The keyword-specific predicate satisfied by every child the search
returns: `container`/`leaf` match by element name; `leaf-list` matches
by body equal to the single query value (the element name is not
examined); `list` matches by key bodies in declared order up to the
first missing key body (the element name is not examined). -/
def foundChk (name : String) (keyword : Keyword) (keyvec keyval : List String)
    (xc : Xml) : Bool :=
  match keyword with
  | .ycontainer | .yleaf => xc.name = name
  | .yleafList =>
    match xml_body xc, keyval.head? with
    | some b, some v => v = b
    | _, _ => false
  | .ylist => listKeysChk xc (keyvec.zip keyval)
  | _ => false

theorem listKeyLoop_zero {x : Xml} : ∀ {ps : List (String × String)},
    listKeyLoop x ps = 0 → listKeysChk x ps = true := by
  intro ps
  induction ps with
  | nil => intro _; rfl
  | cons p rest ih =>
    intro h
    obtain ⟨kn, kv⟩ := p
    cases hb : xml_find_body x kn with
    | none => simp [listKeysChk, hb]
    | some b =>
      simp only [listKeyLoop, hb] at h
      by_cases hm : strcmpInt kv b ≠ 0
      · rw [if_pos hm] at h
        exact absurd h hm
      · rw [if_neg hm] at h
        push_neg at hm
        simp [listKeysChk, hb, strcmpInt_eq_zero.mp hm, ih h]

theorem cmp1_zero_found {x : Xml} {y : Option YangStmt} {name : String}
    {keyword : Keyword} {keyvec keyval : List String}
    (hk : keyword = .ycontainer ∨ keyword = .yleaf ∨ keyword = .yleafList ∨
      keyword = .ylist)
    (h : (xml_cmp1 x y name keyword keyvec keyval).1 = 0) :
    foundChk name keyword keyvec keyval x = true := by
  rcases hk with hk | hk | hk | hk <;> subst hk
  · simp only [xml_cmp1] at h
    simp [foundChk, (strcmpInt_eq_zero.mp h).symm]
  · simp only [xml_cmp1] at h
    simp [foundChk, (strcmpInt_eq_zero.mp h).symm]
  · simp only [xml_cmp1] at h
    simp only [foundChk]
    cases hb : xml_body x with
    | none => rw [hb] at h; exact absurd h (by norm_num)
    | some b =>
      rw [hb] at h
      cases hv : keyval.head? with
      | none => rw [hv] at h; exact absurd h (by norm_num)
      | some v =>
        rw [hv] at h
        simp [strcmpInt_eq_zero.mp h]
  · simp only [xml_cmp1] at h
    simp only [foundChk]
    exact listKeyLoop_zero h

theorem searchLinear_found {name : String} {yangi : Int} {keyword : Keyword}
    {keyvec keyval : List String} : ∀ {l : List Xml} {xc : Xml},
    searchLinear name yangi keyword keyvec keyval l = some xc →
    (xml_cmp1 xc xc.spec name keyword keyvec keyval).1 = 0 := by
  intro l
  induction l with
  | nil => intro xc h; simp [searchLinear] at h
  | cons c rest ih =>
    intro xc h
    simp only [searchLinear] at h
    by_cases ho : yangi ≠ nodeOrder c
    · rw [if_pos ho] at h; exact absurd h (by simp)
    · rw [if_neg ho] at h
      by_cases hm : (xml_cmp1 c c.spec name keyword keyvec keyval).1 = 0
      · rw [if_pos hm] at h
        cases h
        exact hm
      · rw [if_neg hm] at h
        exact ih h

theorem xml_search_userorder_found {x0 : Xml} {name : String} {yangi : Int}
    {mid : Nat} {keyword : Keyword} {keyvec keyval : List String} {xc : Xml}
    (h : xml_search_userorder x0 name yangi mid keyword keyvec keyval = some xc) :
    (xml_cmp1 xc xc.spec name keyword keyvec keyval).1 = 0 := by
  unfold xml_search_userorder at h
  cases hf : searchLinear name yangi keyword keyvec keyval
      (x0.children.drop (mid + 1)) with
  | some z => rw [hf] at h; cases h; exact searchLinear_found hf
  | none => rw [hf] at h; exact searchLinear_found h

theorem xml_search1_cmp1 (x0 : Xml) (name : String) (yangi : Int)
    (keyword : Keyword) (keyvec keyval : List String) :
    ∀ (low upper : Int) (xc : Xml),
      xml_search1 x0 name yangi keyword keyvec keyval low upper = some xc →
      (xml_cmp1 xc xc.spec name keyword keyvec keyval).1 = 0 := by
  intro low upper
  induction low, upper using xml_search1.induct x0 name yangi keyword keyvec keyval with
  | case1 low upper hlt =>
    intro xc h
    rw [xml_search1, if_pos hlt] at h
    exact absurd h (by simp)
  | case2 low upper hlt mid hge =>
    intro xc h
    rw [xml_search1, if_neg hlt] at h
    simp only [if_pos hge] at h
    exact absurd h (by simp)
  | case3 low upper hlt mid hge hnone =>
    intro xc h
    rw [xml_search1, if_neg hlt] at h
    simp only [if_neg hge, hnone] at h
    exact absurd h (by simp)
  | case4 low upper hlt mid hge xm hsome hspec =>
    intro xc h
    rw [xml_search1, if_neg hlt] at h
    simp only [if_neg hge, hsome, hspec] at h
    exact absurd h (by simp)
  | case5 low upper hlt mid hge xm hsome y hspec cmp0 hcmp mu huo =>
    intro xc h
    rw [xml_search1, if_neg hlt] at h
    simp only [if_neg hge, hsome, hspec, if_pos hcmp, if_pos huo] at h
    exact xml_search_userorder_found h
  | case6 low upper hlt mid hge xm hsome y hspec cmp0 hcmp mu hnuo hm =>
    intro xc h
    rw [xml_search1, if_neg hlt] at h
    simp only [if_neg hge, hsome, hspec, if_pos hcmp, if_neg hnuo, if_pos hm] at h
    cases h
    rw [hspec]
    exact hm
  | case7 low upper hlt mid hge xm hsome y hspec cmp0 hcmp mu hnuo hm hneg ih =>
    intro xc h
    rw [xml_search1, if_neg hlt] at h
    simp only [if_neg hge, hsome, hspec, if_pos hcmp, if_neg hnuo, if_neg hm,
      if_pos hneg] at h
    exact ih xc h
  | case8 low upper hlt mid hge xm hsome y hspec cmp0 hcmp mu hnuo hm hneg ih =>
    intro xc h
    rw [xml_search1, if_neg hlt] at h
    simp only [if_neg hge, hsome, hspec, if_pos hcmp, if_neg hnuo, if_neg hm,
      if_neg hneg] at h
    exact ih xc h
  | case9 low upper hlt mid hge xm hsome y hspec cmp0 hncmp hneg ih =>
    intro xc h
    rw [xml_search1, if_neg hlt] at h
    simp only [if_neg hge, hsome, hspec, if_neg hncmp, if_pos hneg] at h
    exact ih xc h
  | case10 low upper hlt mid hge xm hsome y hspec cmp0 hncmp hneg ih =>
    intro xc h
    rw [xml_search1, if_neg hlt] at h
    simp only [if_neg hge, hsome, hspec, if_neg hncmp, if_neg hneg] at h
    exact ih xc h

/-! ## Concrete fixtures -/

/-- An `ordered-by user` sub-statement, attached to user-ordered
statements. -/
def obUser : YangStmt := .mk .yorderedBy "user" 0 true [] none 0 "m" []

/-- A body child carrying the given text. -/
def bodyNode (s : String) : Xml := .mk "body" none .body s [] none none

/-- A string-typed `leaf-list a` statement with order 5. -/
def yC1ll : YangStmt := .mk .yleafList "a" 5 true [] (some "string") 0 "m" []

/-- A leaf-list-bound element whose element name `b` differs from the
statement argument. -/
def xC1a : Xml := .mk "b" none .elmnt "" [bodyNode "v"] (some yC1ll) none

def xC1aP : Xml := .mk "p" none .elmnt "" [xC1a] none none

/-- A `list l` statement with keys `k1`, `k2` and order 7. -/
def yC1list : YangStmt := .mk .ylist "l" 7 true ["k1", "k2"] none 0 "m" []

def xC1k1 : Xml := .mk "k1" none .elmnt "" [bodyNode "1"] none none

/-- A list instance that carries key `k1` = 1 but no `k2` at all. -/
def xC1b : Xml := .mk "l" none .elmnt "" [xC1k1] (some yC1list) none

def xC1bP : Xml := .mk "p" none .elmnt "" [xC1b] none none

/-- C1, counterexample.  The claim requires every hit to satisfy the
§4.C predicate — for `leaf-list` "same name and body equal", for `list`
"every key body equal in declared order".  Both fail: (a) on a sorted
parent, searching for leaf-list name `a` with value `v` returns the
child although its element name is `b` (the predicate never reads the
name); (b) searching for list `l` with keys `k1`=1, `k2`=2 returns a
child that has no `k2` key at all (a missing key body ends the key scan
as a match). -/
theorem C1_counterexample :
    (xml_sort_verify xC1aP = 0 ∧
      xml_search xC1aP "a" 5 .yleafList [] ["v"] = some xC1a ∧
      xC1a.name ≠ "a") ∧
    (xml_sort_verify xC1bP = 0 ∧
      xml_search xC1bP "l" 7 .ylist ["k1", "k2"] ["1", "2"] = some xC1b ∧
      xml_find_body xC1b "k2" = none) := by
  refine ⟨⟨by rfl, ?_, by simp [xC1a, Xml.name]⟩, ⟨by rfl, ?_, by rfl⟩⟩
  · simp [xml_search, xml_search1, xml_child_nr, xC1aP, xC1a, childAtI,
      Xml.children, Xml.spec, xml_cmp1, xml_body, Xml.xtype, strcmpInt,
      nodeOrder, YangStmt.order, Xml.name, Xml.value, yC1ll, bodyNode,
      YangStmt.config, yangOrderedByUser, YangStmt.children]
  · simp [xml_search, xml_search1, xml_child_nr, xC1bP, xC1b, xC1k1, childAtI,
      Xml.children, Xml.spec, xml_cmp1, xml_body, Xml.xtype, strcmpInt,
      nodeOrder, YangStmt.order, Xml.name, Xml.value, yC1list, bodyNode,
      YangStmt.config, yangOrderedByUser, YangStmt.children, listKeyLoop,
      xml_find_body, xml_find, YangStmt.keys]

/-- C1 (amended): for every parent whose element children are sorted
(`xml_sort_verify` succeeds) and every query tuple with keyword
`container`, `leaf`, `leaf-list` or `list`, `xml_search` either returns
none or returns a child satisfying the keyword-specific predicate the
code implements (`foundChk`): `container`/`leaf` — same element name;
`leaf-list` — body equal to the single value, name not examined;
`list` — key bodies equal in declared order up to the first missing key
body, which ends the scan as a match, name not examined.  The search is
a total function: it never signals an error. -/
theorem C1_search_sound (x0 : Xml) (name : String) (yangi : Int)
    (keyword : Keyword) (keyvec keyval : List String)
    (hk : keyword = .ycontainer ∨ keyword = .yleaf ∨ keyword = .yleafList ∨
      keyword = .ylist)
    (_hsorted : xml_sort_verify x0 = 0) :
    xml_search x0 name yangi keyword keyvec keyval = none ∨
      ∃ xc, xml_search x0 name yangi keyword keyvec keyval = some xc ∧
        foundChk name keyword keyvec keyval xc = true := by
  cases hres : xml_search x0 name yangi keyword keyvec keyval with
  | none => exact Or.inl rfl
  | some xc =>
    exact Or.inr ⟨xc, rfl, cmp1_zero_found hk
      (xml_search1_cmp1 x0 name yangi keyword keyvec keyval 0
        (xml_child_nr x0) xc hres)⟩

/-- Witness for `C1_search_sound` at a concrete sorted parent: the
hypotheses hold and the search finds the matching child. -/
theorem C1_search_sound_witness :
    ((Keyword.yleafList = .ycontainer ∨ Keyword.yleafList = .yleaf ∨
        Keyword.yleafList = .yleafList ∨ Keyword.yleafList = .ylist) ∧
      xml_sort_verify xC1aP = 0) ∧
    (xml_search xC1aP "a" 5 .yleafList [] ["v"] = none ∨
      ∃ xc, xml_search xC1aP "a" 5 .yleafList [] ["v"] = some xc ∧
        foundChk "a" .yleafList [] ["v"] xc = true) :=
  ⟨⟨by simp, by rfl⟩,
    C1_search_sound xC1aP "a" 5 .yleafList [] ["v"] (by simp) (by rfl)⟩

/-- An element bound to the leaf-list statement, matching the C9 query. -/
def xC9m : Xml := .mk "a" none .elmnt "" [bodyNode "v"] (some yC1ll) none

/-- An element with no bound YANG statement. -/
def xC9u : Xml := .mk "a" none .elmnt "" [bodyNode "v"] none none

/-- Parent whose probed midpoint (index 1 of 2) is the unbound child. -/
def xC9P : Xml := .mk "p" none .elmnt "" [xC9m, xC9u] none none

/-- C9 (implicit): when the child at the binary-search midpoint has no
bound YANG statement, `xml_search1` returns none immediately — the
remaining children are never examined, regardless of whether a
matching, schema-bound child exists among them. -/
theorem C9_unbound_midpoint (x0 : Xml) (name : String) (yangi : Int)
    (keyword : Keyword) (keyvec keyval : List String) (low upper : Int)
    (hle : ¬upper < low)
    (hmid : ¬(xml_child_nr x0 : Int) ≤ (low + upper) / 2)
    (xc : Xml)
    (hat : childAtI x0 ((low + upper) / 2) = some xc)
    (hspec : xc.spec = none) :
    xml_search1 x0 name yangi keyword keyvec keyval low upper = none := by
  rw [xml_search1, if_neg hle]
  simp only [if_neg hmid, hat, hspec]

/-- Witness for `C9_unbound_midpoint`: the midpoint child of `xC9P` is
unbound, so the search over the full interval returns none even though
the sibling at index 0 is schema-bound and satisfies the query
predicate. -/
theorem C9_unbound_midpoint_witness :
    ((¬(2 : Int) < 0) ∧
      (¬(xml_child_nr xC9P : Int) ≤ ((0 : Int) + 2) / 2) ∧
      childAtI xC9P (((0 : Int) + 2) / 2) = some xC9u ∧
      xC9u.spec = none) ∧
    xml_search1 xC9P "a" 5 .yleafList [] ["v"] 0 2 = none ∧
    (xml_cmp1 xC9m xC9m.spec "a" .yleafList [] ["v"]).1 = 0 :=
  ⟨⟨by norm_num, by norm_num [xml_child_nr, xC9P, Xml.children], by rfl, by rfl⟩,
    C9_unbound_midpoint xC9P "a" 5 .yleafList [] ["v"] 0 2
      (by norm_num) (by norm_num [xml_child_nr, xC9P, Xml.children])
      xC9u (by rfl) (by rfl),
    by rfl⟩

/-- C10 (implicit): the linear matcher with keyword `container` or
`leaf` and a nonzero key count reports an EINVAL error and returns no
child, whatever the parent's children are; the matcher never mutates
the tree (it is a pure lookup). -/
theorem C10_match_keynr (x0 : Xml) (name : String) (keyword : Keyword)
    (keynr : Nat) (keyvec keyval : List String)
    (hk : keyword = .ycontainer ∨ keyword = .yleaf)
    (hn : keynr ≠ 0) :
    xml_match x0 name keyword keynr keyvec keyval = none := by
  rcases hk with hk | hk <;> subst hk <;> simp [xml_match, hn]

def xC10a : Xml := .mk "a" none .elmnt "" [] none none

def xC10P : Xml := .mk "p" none .elmnt "" [xC10a] none none

/-- Witness for `C10_match_keynr`: with one key the matcher returns
none although a child of the requested name exists and `xml_find`
would locate it. -/
theorem C10_match_keynr_witness :
    ((Keyword.ycontainer = .ycontainer ∨ Keyword.ycontainer = .yleaf) ∧
      (1 : Nat) ≠ 0) ∧
    xml_match xC10P "a" .ycontainer 1 ["k"] ["v"] = none ∧
    xml_find xC10P "a" = some xC10a :=
  ⟨⟨Or.inl rfl, by norm_num⟩,
    C10_match_keynr xC10P "a" .ycontainer 1 ["k"] ["v"] (Or.inl rfl)
      (by norm_num),
    by rfl⟩

/-- A user-ordered string leaf-list `a` with order 0. -/
def yC3 : YangStmt := .mk .yleafList "a" 0 true [] (some "string") 0 "m" [obUser]

def xC3a0 : Xml := .mk "a" none .elmnt "" [bodyNode "x"] (some yC3) none

def xC3a1 : Xml := .mk "a" none .elmnt "" [bodyNode "y"] (some yC3) none

def xC3a2 : Xml := .mk "a" none .elmnt "" [bodyNode "z"] (some yC3) none

/-- Three same-name children of a user-ordered leaf-list run. -/
def xC3P : Xml := .mk "p" none .elmnt "" [xC3a0, xC3a1, xC3a2] none none

/-- C3, counterexample.  The binary search over (0,3) hits midpoint 1
inside the user-ordered run; the last same-name child of the run has
index 2 (index 3 is past the vector), and the claim demands the
returned position be that index plus one, 3 — but the code returns the
index 2 itself (the caller inserts after the returned position). -/
theorem C3_counterexample :
    xml_insert_pos xC3P "a" 0 .yleafList [] ["q"] 0 3 = 2 ∧
    (xC3P.children[2]?).map Xml.name = some "a" ∧
    xC3P.children[3]? = none ∧
    xml_insert_pos xC3P "a" 0 .yleafList [] ["q"] 0 3 ≠ 2 + 1 := by
  have h : xml_insert_pos xC3P "a" 0 .yleafList [] ["q"] 0 3 = 2 := by
    set_option maxRecDepth 4000 in
    simp [xml_insert_pos, scanFwdPos, scanFwd, xml_child_nr, xC3P, Xml.children,
      childAtI, nodeOrder, Xml.spec, xC3a0, xC3a1, xC3a2, yC3, YangStmt.order,
      xml_cmp1, YangStmt.config, yangOrderedByUser, YangStmt.children, obUser,
      YangStmt.keyword, YangStmt.argument, Xml.name, xml_body, bodyNode,
      Xml.xtype, Xml.value, strcmpInt]
  exact ⟨h, by rfl, by rfl, by rw [h]; norm_num⟩

/-- C3 (amended): when the insert-position binary search hits a child
of the queried YANG order and the query predicate reports a
user-ordered statement, the returned position is `scanFwdPos` — the
index of the last child of the consecutive same-name run extending
forward from the midpoint — and the new element is inserted after that
returned position; the returned value is the last index itself, not
that index plus one. -/
theorem C3_insert_pos_user (x0 : Xml) (name : String) (yangi : Int)
    (keyword : Keyword) (keyvec keyval : List String) (low upper : Int)
    (hle : ¬upper < low)
    (hmid : ¬(xml_child_nr x0 : Int) ≤ (low + upper) / 2)
    (xc : Xml) (hat : childAtI x0 ((low + upper) / 2) = some xc)
    (hord : yangi - nodeOrder xc = 0)
    (huo : (xml_cmp1 xc xc.spec name keyword keyvec keyval).2 = true) :
    xml_insert_pos x0 name yangi keyword keyvec keyval low upper =
      (scanFwdPos x0 name ((low + upper) / 2).toNat
        (((low + upper) / 2).toNat + 1) : Int) := by
  rw [xml_insert_pos, if_neg hle]
  simp only [if_neg hmid, hat, if_pos hord, huo, if_true]

/-- Witness for `C3_insert_pos_user` on the three-element user-ordered
run: the scan stops at index 2, the returned position. -/
theorem C3_insert_pos_user_witness :
    ((¬(3 : Int) < 0) ∧
      (¬(xml_child_nr xC3P : Int) ≤ ((0 : Int) + 3) / 2) ∧
      childAtI xC3P (((0 : Int) + 3) / 2) = some xC3a1 ∧
      (0 : Int) - nodeOrder xC3a1 = 0 ∧
      (xml_cmp1 xC3a1 xC3a1.spec "a" .yleafList [] ["q"]).2 = true) ∧
    xml_insert_pos xC3P "a" 0 .yleafList [] ["q"] 0 3 =
      (scanFwdPos xC3P "a" (((0 : Int) + 3) / 2).toNat
        ((((0 : Int) + 3) / 2).toNat + 1) : Int) :=
  ⟨⟨by norm_num, by norm_num [xml_child_nr, xC3P, Xml.children],
      by rfl, by rfl, by rfl⟩,
    C3_insert_pos_user xC3P "a" 0 .yleafList [] ["q"] 0 3
      (by norm_num) (by norm_num [xml_child_nr, xC3P, Xml.children])
      xC3a1 (by rfl) (by rfl) (by rfl)⟩

/-- A user-ordered (config true) `list r` statement for the C4 root. -/
def yC4root : YangStmt := .mk .ylist "r" 0 true ["n"] none 0 "m" [obUser]

def yC4a : YangStmt := .mk .yleaf "ca" 2 true [] (some "string") 0 "m" []

def yC4b : YangStmt := .mk .yleaf "cb" 1 true [] (some "string") 0 "m" []

def xC4a : Xml := .mk "ca" none .elmnt "" [] (some yC4a) none

def xC4b : Xml := .mk "cb" none .elmnt "" [] (some yC4b) none

/-- A tree whose root statement is ordered-by user and config true, and
whose two children arrive against their YANG order. -/
def xC4 : Xml := .mk "r" none .elmnt "" [xC4a, xC4b] (some yC4root) none

/-- C4, counterexample.  The claim exempts `ordered-by user` roots from
sorting, but `xml_sort` skips only state data (config false): on a root
bound to an ordered-by-user, config-true statement the children are
still qsorted by the child comparator and swap into YANG order, so
`sort(T) ≠ T`. -/
theorem C4_counterexample :
    yangOrderedByUser yC4root = true ∧
    yC4root.config = true ∧
    (xml_sort xC4).2 = Xml.mk "r" none .elmnt "" [xC4b, xC4a] (some yC4root) none ∧
    (xml_sort xC4).2 ≠ xC4 := by
  have h : (xml_sort xC4).2 =
      Xml.mk "r" none .elmnt "" [xC4b, xC4a] (some yC4root) none := by rfl
  refine ⟨by rfl, by rfl, h, ?_⟩
  rw [h]
  simp [xC4, xC4a, xC4b, yC4a, yC4b, Xml.mk.injEq]

/-- C4 (amended): sort leaves the tree unchanged exactly in the state
data case: when the root's bound statement has config false, `xml_sort`
aborts with return value 1 and the children keep their arrival order.
An `ordered-by user` root statement does not suppress the qsort — only
the children's own shared user-ordered statement makes them compare
equal, which pins their relative order but not the root's child vector
in general. -/
theorem C4_sort_state_id (x : Xml) (ys : YangStmt)
    (hspec : x.spec = some ys) (hconf : ys.config = false) :
    xml_sort x = (1, x) := by
  unfold xml_sort
  rw [hspec]
  simp [hconf]

/-- A config-false (state data) list statement. -/
def yC4state : YangStmt := .mk .ylist "s" 0 false ["n"] none 0 "m" []

/-- State-data root with children against YANG order. -/
def xC4s : Xml := .mk "s" none .elmnt "" [xC4a, xC4b] (some yC4state) none

/-- Witness for `C4_sort_state_id`: a state-data root keeps its child
order (and `xml_sort` reports 1, the traversal abort). -/
theorem C4_sort_state_id_witness :
    (xC4s.spec = some yC4state ∧ yC4state.config = false) ∧
    xml_sort xC4s = (1, xC4s) :=
  ⟨⟨rfl, rfl⟩, C4_sort_state_id xC4s yC4state rfl rfl⟩

/-- C5: for two siblings bound to the same `leaf-list` statement that is
neither state data nor ordered-by user, the child comparator compares
the typed body values under the resolved YANG type (the cached-or-parsed
`cv` of each body, compared with `cv_cmp`), and a sibling with no body
compares strictly less than any sibling with a body (and conversely,
strictly greater the other way round). -/
theorem C5_leaflist_cmp (x1 x2 : Xml) (y : YangStmt)
    (h1 : x1.spec = some y) (h2 : x2.spec = some y)
    (hkw : y.keyword = .yleafList)
    (hcfg : y.config = true) (huser : yangOrderedByUser y = false) :
    (∀ b2, xml_body x1 = none → xml_body x2 = some b2 → xml_cmp x1 x2 = -1) ∧
    (∀ b1, xml_body x1 = some b1 → xml_body x2 = none → xml_cmp x1 x2 = 1) ∧
    (∀ b1 b2 cv1 cv2, xml_body x1 = some b1 → xml_body x2 = some b2 →
      xml_cv_cache x1 b1 = some cv1 → xml_cv_cache x2 b2 = some cv2 →
      xml_cmp x1 x2 = cv_cmp cv1 cv2) := by
  have hbase : ∀ r : Int,
      (match xml_body x1 with
        | none => -1
        | some b1 =>
          match xml_body x2 with
          | none => 1
          | some b2 =>
            match xml_cv_cache x1 b1, xml_cv_cache x2 b2 with
            | some cv1, some cv2 => cv_cmp cv1 cv2
            | _, _ => 0) = r →
      xml_cmp x1 x2 = r := by
    intro r hr
    unfold xml_cmp
    rw [h1, h2]
    simp only [sub_self, ne_eq, not_true_eq_false, if_false, hcfg, huser,
      Bool.true_eq_false, or_self, hkw]
    exact hr
  refine ⟨?_, ?_, ?_⟩
  · intro b2 hb1 hb2
    exact hbase (-1) (by simp only [hb1])
  · intro b1 hb1 hb2
    exact hbase 1 (by simp only [hb1, hb2])
  · intro b1 b2 cv1 cv2 hb1 hb2 hc1 hc2
    exact hbase (cv_cmp cv1 cv2) (by simp only [hb1, hb2, hc1, hc2])

/-- A uint8-typed leaf-list statement: the typed comparison orders 9
before 10, where a plain string comparison would not. -/
def yC5 : YangStmt := .mk .yleafList "n" 3 true [] (some "uint8") 0 "m" []

def xC5a : Xml := .mk "n" none .elmnt "" [bodyNode "10"] (some yC5) none

def xC5b : Xml := .mk "n" none .elmnt "" [bodyNode "9"] (some yC5) none

/-- Witness for `C5_leaflist_cmp`: the two uint8 bodies 10 and 9 parse
to typed values and the comparator result equals their numeric
comparison (10 > 9, although "10" < "9" as strings). -/
theorem C5_leaflist_cmp_witness :
    (xC5a.spec = some yC5 ∧ xC5b.spec = some yC5 ∧
      yC5.keyword = .yleafList ∧ yC5.config = true ∧
      yangOrderedByUser yC5 = false ∧
      xml_body xC5a = some "10" ∧ xml_body xC5b = some "9" ∧
      xml_cv_cache xC5a "10" = some (Cv.num 10) ∧
      xml_cv_cache xC5b "9" = some (Cv.num 9)) ∧
    xml_cmp xC5a xC5b = cv_cmp (Cv.num 10) (Cv.num 9) ∧
    cv_cmp (Cv.num 10) (Cv.num 9) = 1 :=
  ⟨⟨rfl, rfl, rfl, rfl, by rfl, by rfl, by rfl, by rfl, by rfl⟩,
    (C5_leaflist_cmp xC5a xC5b yC5 rfl rfl rfl rfl (by rfl)).2.2
      "10" "9" (Cv.num 10) (Cv.num 9) (by rfl) (by rfl) (by rfl) (by rfl),
    by rfl⟩

/-- C8: (1) for a child whose parent is bound to an `rpc` statement,
the resolver searches the data nodes of the rpc's `input` sub-statement
for a statement named like the child (resolving to nothing when the rpc
has no `input`), the rpc→input fix-up applied on top; (2) whenever the
pre-kludge resolution yields a statement that is itself an `rpc`
possessing an `input` sub-statement, the resolver returns that `input`
sub-statement instead of the rpc. -/
theorem C8_rpc_resolution (env : ResolverEnv) (nsStrict : Bool) (x : Xml)
    (xp : Xml) (hasSpec : Bool) (yp : YangStmt)
    (hp : xp.spec = some yp) (hrpc : yp.keyword = .yrpc) :
    (xml_child_spec env nsStrict x (some xp) hasSpec =
      rpcInputFix (match yang_find yp .yinput with
        | some yi => yang_find_datanode yi x.name
        | none => none)) ∧
    (∀ (xq : Option Xml) (y yi : YangStmt),
      xml_child_spec0 env nsStrict x xq hasSpec = some y →
      y.keyword = .yrpc → yang_find y .yinput = some yi →
      xml_child_spec env nsStrict x xq hasSpec = some yi) := by
  constructor
  · unfold xml_child_spec xml_child_spec0
    simp only [hp, hrpc, if_true]
  · intro xq y yi h0 hyk hyi
    unfold xml_child_spec
    rw [h0]
    unfold rpcInputFix
    simp [hyk, hyi]

/-- `leaf x` inside the rpc input. -/
def yC8x : YangStmt := .mk .yleaf "x" 2 true [] (some "uint32") 0 "m" []

/-- The `input` sub-statement of the rpc. -/
def yC8input : YangStmt := .mk .yinput "input" 1 true [] none 0 "m" [yC8x]

/-- An `rpc example` statement carrying an `input`. -/
def yC8rpc : YangStmt := .mk .yrpc "example" 0 true [] none 0 "m" [yC8input]

/-- A module whose top-level schema nodes contain the rpc. -/
def yC8mod : YangStmt := .mk .ymodule "m" 0 true [] none 0 "m" [yC8rpc]

/-- Parent element bound to the rpc statement. -/
def xC8p : Xml := .mk "example" none .elmnt "" [] (some yC8rpc) none

/-- The incoming child `<x>`. -/
def xC8x : Xml := .mk "x" none .elmnt "" [] none none

/-- A top-level element named like the rpc, with no parent. -/
def xC8e : Xml := .mk "example" none .elmnt "" [] none none

/-- Resolver environment whose module lookup finds `yC8mod`. -/
def envC8 : ResolverEnv :=
  { modByXml := fun _ => some yC8mod
    findNonStrict := fun _ => none }

/-- Witness for `C8_rpc_resolution`: under the rpc-bound parent the
child `x` resolves to the `leaf x` of the rpc input; and the top-level
resolution of `example` (which finds the rpc itself) returns the
`input` sub-statement instead of the rpc. -/
theorem C8_rpc_resolution_witness :
    (xC8p.spec = some yC8rpc ∧ yC8rpc.keyword = .yrpc) ∧
    (xml_child_spec envC8 true xC8x (some xC8p) true =
      rpcInputFix (match yang_find yC8rpc .yinput with
        | some yi => yang_find_datanode yi xC8x.name
        | none => none)) ∧
    xml_child_spec envC8 true xC8x (some xC8p) true = some yC8x ∧
    xml_child_spec0 envC8 true xC8e none true = some yC8rpc ∧
    xml_child_spec envC8 true xC8e none true = some yC8input := by
  have h := C8_rpc_resolution envC8 true xC8x xC8p true yC8rpc rfl rfl
  have hdn : rpcInputFix (match yang_find yC8rpc .yinput with
      | some yi => yang_find_datanode yi xC8x.name
      | none => none) = some yC8x := by
    simp [yang_find, yC8rpc, yC8input, yC8x, YangStmt.children, YangStmt.keyword,
      yang_find_datanode, findDatanodeL, isDataNode, YangStmt.argument, xC8x,
      Xml.name, rpcInputFix]
  have h0 : xml_child_spec0 envC8 true xC8e none true = some yC8rpc := by
    unfold xml_child_spec0 xml_child_spec0.topSearch
    simp [envC8, yang_find_schemanode, findSchemanodeL, yC8mod, yC8rpc,
      YangStmt.children, YangStmt.keyword, isSchemaNode, isDataNode,
      YangStmt.argument, xC8e, Xml.name]
  refine ⟨⟨rfl, rfl⟩, h.1, ?_, h0, ?_⟩
  · rw [h.1, hdn]
  · exact (C8_rpc_resolution envC8 true xC8e xC8p true yC8rpc rfl rfl).2
      none yC8rpc yC8input h0 rfl rfl

theorem Xml.children_withChildren (x : Xml) (cs : List Xml) :
    (x.withChildren cs).children = cs := by
  cases x; rfl

theorem Xml.children_withPfx (x : Xml) (p : Option String) :
    (x.withPfx p).children = x.children := by
  cases x; rfl

theorem Xml.pfx_withPfx (x : Xml) (p : Option String) :
    (x.withPfx p).pfx = p := by
  cases x; rfl

theorem getXmlns_setAttr (ns : String) : ∀ cs : List Xml,
    ((setXmlnsAttr ns cs).find? (fun c =>
      c.xtype = XmlType.attr ∧ c.name = "xmlns" ∧ c.pfx = none)).map Xml.value =
      some ns := by
  intro cs
  induction cs with
  | nil => rfl
  | cons c rest ih =>
    by_cases hc : c.xtype = XmlType.attr ∧ c.name = "xmlns" ∧ c.pfx = none
    · simp only [setXmlnsAttr, if_pos hc]
      rw [List.find?_cons_of_pos]
      · rfl
      · exact decide_eq_true (by exact hc)
    · simp only [setXmlnsAttr, if_neg hc]
      rw [List.find?_cons_of_neg]
      · exact ih
      · simpa using hc

/-- The namespace change makes the element carry the requested default
namespace and clears its prefix. -/
theorem xml_namespace_change_spec (z : Xml) (ns : String) :
    getXmlns (xml_namespace_change z ns) = some ns ∧
    (xml_namespace_change z ns).pfx = none := by
  constructor
  · unfold getXmlns xml_namespace_change
    rw [Xml.children_withPfx, Xml.children_withChildren]
    exact getXmlns_setAttr ns z.children
  · unfold xml_namespace_change
    rw [Xml.pfx_withPfx]

theorem jsonParseLoop_unqualified (env : ParseEnv) (spec : YangSpec)
    (yb : YangBind) : ∀ (l : List Xml) (failed : Nat),
    (∃ x ∈ l, x.pfx = none) →
    ∃ e, jsonParseLoop env (some spec) yb l failed = .error e := by
  intro l
  induction l with
  | nil => intro failed h; simp at h
  | cons x rest ih =>
    intro failed h
    by_cases hx : x.pfx = none
    · refine ⟨.malformedMessage ("Top-level JSON object " ++ x.name ++
        " is not qualified with namespace which is a MUST according to RFC 7951"), ?_⟩
      simp only [jsonParseLoop]
      rw [if_pos ⟨by simp, hx⟩]
    · have hrest : ∃ z ∈ rest, z.pfx = none := by
        rcases h with ⟨z, hz, hzp⟩
        rcases List.mem_cons.mp hz with h1 | h1
        · exact absurd (h1 ▸ hzp) hx
        · exact ⟨z, h1, hzp⟩
      simp only [jsonParseLoop]
      rw [if_neg (by simp [hx])]
      cases ht : json_xmlns_translate (some spec) x with
      | error e => exact ⟨e, rfl⟩
      | ok x1 =>
        dsimp only
        cases hd : json2xml_decode env (bindStep env yb x1 failed).1 with
        | error e => exact ⟨e, rfl⟩
        | ok x2 =>
          obtain ⟨e, he⟩ := ih (bindStep env yb x1 failed).2 hrest
          exact ⟨e, by dsimp only; rw [he]⟩

/-- C7: decoding against a YANG spec, (1) any top-level member without a
module qualifier makes `_json_parse` yield the invalid outcome (never a
tree); (2) when the first member is unqualified the reported error is
the RFC 7951 malformed-message failure; (3) with a qualifier present
and the module found by name, the translated element carries the
module's namespace URI as its default namespace and its prefix is
cleared. -/
theorem C7_top_level_qualifier (env : ParseEnv) (spec : YangSpec)
    (yb : YangBind) :
    (∀ xvec : List Xml, (∃ x ∈ xvec, x.pfx = none) →
      ∃ e, _json_parse env (some spec) yb xvec = .invalid e) ∧
    (∀ (x : Xml) (rest : List Xml), x.pfx = none →
      _json_parse env (some spec) yb (x :: rest) = .invalid
        (.malformedMessage ("Top-level JSON object " ++ x.name ++
          " is not qualified with namespace which is a MUST according to RFC 7951"))) ∧
    (∀ (yspec : Option YangSpec) (x t : Xml) (m : String) (ymod : YangModule),
      x.pfx = some m → yang_find_module_by_name yspec m = some ymod →
      json_xmlns_translate yspec x = .ok t →
      getXmlns t = some ymod.ns ∧ t.pfx = none) := by
  refine ⟨?_, ?_, ?_⟩
  · intro xvec hex
    obtain ⟨e, he⟩ := jsonParseLoop_unqualified env spec yb xvec 0 hex
    exact ⟨e, by unfold _json_parse; rw [he]⟩
  · intro x rest hx
    unfold _json_parse
    simp only [jsonParseLoop]
    rw [if_pos ⟨by simp, hx⟩]
  · intro yspec x t m ymod hpfx hmod htr
    rw [json_xmlns_translate] at htr
    simp only [hpfx, hmod] at htr
    cases htl : translateL yspec x.children with
    | error e =>
      rw [htl] at htr
      exact absurd htr (by simp)
    | ok cs =>
      rw [htl] at htr
      simp only [Except.ok.injEq] at htr
      subst htr
      exact xml_namespace_change_spec (x.withChildren cs) ymod.ns

def modC7 : YangModule := { name := "mA", ns := "urn:a" }

def specC7 : YangSpec := { modules := [modC7] }

/-- A decoding environment whose collaborators always succeed. -/
def envC7 : ParseEnv :=
  { decodeIdentityref := fun z => .ok z
    populateParent := fun z => (true, z)
    populateTop := fun z => (true, z) }

/-- An unqualified top-level member. -/
def x7u : Xml := .mk "input" none .elmnt "" [] none none

/-- A member qualified with module name `mA`. -/
def x7q : Xml := .mk "top" (some "mA") .elmnt "" [] none none

/-- The translation of `x7q`: default namespace `urn:a`, prefix gone. -/
def t7 : Xml := xml_namespace_change (x7q.withChildren []) "urn:a"

/-- Witness for `C7_top_level_qualifier`: an unqualified top-level
member yields the malformed-message invalid outcome; a qualified member
is moved to the looked-up module's namespace with its prefix cleared. -/
theorem C7_top_level_qualifier_witness :
    (x7u.pfx = none ∧ x7q.pfx = some "mA" ∧
      yang_find_module_by_name (some specC7) "mA" = some modC7 ∧
      json_xmlns_translate (some specC7) x7q = .ok t7) ∧
    _json_parse envC7 (some specC7) .ybNone [x7u] = .invalid
      (.malformedMessage ("Top-level JSON object " ++ x7u.name ++
        " is not qualified with namespace which is a MUST according to RFC 7951")) ∧
    (∃ e, _json_parse envC7 (some specC7) .ybNone [x7u] = .invalid e) ∧
    getXmlns t7 = some "urn:a" ∧ t7.pfx = none := by
  have hc := C7_top_level_qualifier envC7 specC7 .ybNone
  have htr : json_xmlns_translate (some specC7) x7q = .ok t7 := by
    simp [json_xmlns_translate, translateL, x7q, Xml.pfx, Xml.children,
      yang_find_module_by_name, specC7, modC7, t7, xml_namespace_change,
      setXmlnsAttr, Xml.withChildren, Xml.withPfx]
  refine ⟨⟨rfl, rfl, rfl, htr⟩, hc.2.1 x7u [] rfl, ?_, ?_⟩
  · exact hc.1 [x7u] ⟨x7u, by simp, rfl⟩
  · exact hc.2.2 (some specC7) x7q t7 "mA" modC7 rfl rfl htr

theorem emitChildren_attrs (env : CodecEnv) (pspec : Option YangStmt)
    (commas : Int) (lvl pretty : Nat) (mod0 : Option String) :
    ∀ (cs : List Xml) (prev : Option Xml),
      (∀ c ∈ cs, c.xtype = XmlType.attr) →
      emitChildren env pspec prev cs commas lvl pretty mod0 = "" := by
  intro cs
  induction cs with
  | nil => intro prev _; rw [emitChildren]
  | cons c rest ih =>
    intro prev hall
    rw [emitChildren]
    rw [if_pos (hall c (by simp))]
    exact ih (some c) (fun z hz => hall z (by simp [hz]))

theorem notAttr_zero_all {x : Xml} (hc : notAttrNr x = 0) :
    ∀ c ∈ x.children, c.xtype = XmlType.attr := by
  intro c hmem
  by_contra hne
  have hin : c ∈ x.children.filter (fun c => c.xtype ≠ XmlType.attr) :=
    List.mem_filter.mpr ⟨hmem, by simpa using hne⟩
  have h0 : x.children.filter (fun c => c.xtype ≠ XmlType.attr) = [] :=
    List.length_eq_zero.mp hc
  rw [h0] at hin
  simp at hin

theorem child_type_null {x : Xml} (hx : x.xtype = XmlType.elmnt)
    (hc : notAttrNr x = 0) : child_type x = .nullChild := by
  unfold child_type
  rw [hc, if_neg (show ¬x.xtype ≠ XmlType.elmnt by simp [hx])]
  rfl

/-- C6: an element in array position `none` (NO_ARRAY) with no element
or body children emits `"a":` followed by: `{}` when its bound
statement is a container, `[null]` when it is a leaf or leaf-list, and
`null` otherwise — including when no statement is bound at all.
(`memberLabel` is the `"mod:name":` member label; pretty-printing
off.) -/
theorem C6_null_emission (env : CodecEnv) (x : Xml) (level : Nat)
    (mod0 : Option String) (yp : Option YangStmt)
    (hx : x.xtype = XmlType.elmnt) (hc : notAttrNr x = 0) :
    (∀ ys, x.spec = some ys → ys.keyword = .ycontainer →
      xml2json1_cbuf env x .noArray level 0 false mod0 yp =
        memberLabel 0 level (modnamePass x.spec mod0).1 x.name ++ "\x7b\x7d") ∧
    (∀ ys, x.spec = some ys →
      (ys.keyword = .yleaf ∨ ys.keyword = .yleafList) →
      xml2json1_cbuf env x .noArray level 0 false mod0 yp =
        memberLabel 0 level (modnamePass x.spec mod0).1 x.name ++ "[null]") ∧
    ((∀ ys, x.spec = some ys → ys.keyword ≠ .ycontainer ∧
        ys.keyword ≠ .yleaf ∧ ys.keyword ≠ .yleafList) →
      xml2json1_cbuf env x .noArray level 0 false mod0 yp =
        memberLabel 0 level (modnamePass x.spec mod0).1 x.name ++ "null") := by
  have hemit : emitChildren env x.spec none x.children
      ((notAttrNr x : Int) - 1) (level + 1) 0 (modnamePass x.spec mod0).2 = "" :=
    emitChildren_attrs env x.spec ((notAttrNr x : Int) - 1) (level + 1) 0
      (modnamePass x.spec mod0).2 x.children none (notAttr_zero_all hc)
  have hbase : xml2json1_cbuf env x .noArray level 0 false mod0 yp =
      memberLabel 0 level (modnamePass x.spec mod0).1 x.name ++
        (match x.spec with
         | some ys =>
           if ys.keyword = .ycontainer then "\x7b\x7d"
           else if ys.keyword = .yleaf ∨ ys.keyword = .yleafList then "[null]"
           else "null"
         | none => "null") := by
    rw [xml2json1_cbuf]
    rw [child_type_null hx hc]
    dsimp only
    rw [hemit]
    cases hs : x.spec with
    | none => simp [dbgStr]
    | some ys =>
      by_cases h1 : ys.keyword = .ycontainer
      · simp [dbgStr, h1]
      · by_cases h2 : ys.keyword = .yleaf ∨ ys.keyword = .yleafList
        · simp [dbgStr, h1, h2]
        · simp [dbgStr, h1, h2]
  refine ⟨?_, ?_, ?_⟩
  · intro ys hs hk
    rw [hbase, hs]
    simp [hk]
  · intro ys hs hk
    rw [hbase, hs]
    have hnc : ys.keyword ≠ .ycontainer := by
      rcases hk with hk | hk <;> rw [hk] <;> simp
    simp [hnc, hk]
  · intro hk
    cases hs : x.spec with
    | none => rw [hbase, hs]
    | some ys =>
      obtain ⟨h1, h2, h3⟩ := hk ys hs
      rw [hbase, hs]
      simp [h1, h2, h3]

/-- A container statement. -/
def yC6c : YangStmt := .mk .ycontainer "c" 0 true [] none 0 "m" []

/-- A container-bound element with only an attribute child. -/
def xC6 : Xml := .mk "c" none .elmnt ""
  [.mk "at" none .attr "w" [] none none] (some yC6c) none

/-- The identityref encoder stub: no claim exercises it. -/
def envJ : CodecEnv := { encIdentityref := fun _ b _ => b }

/-- Witness for `C6_null_emission`: the empty container-bound element
emits `"m:c":{}` (the module prefix is printed at the top level). -/
theorem C6_null_emission_witness :
    (xC6.xtype = XmlType.elmnt ∧ notAttrNr xC6 = 0 ∧
      xC6.spec = some yC6c ∧ yC6c.keyword = .ycontainer) ∧
    xml2json1_cbuf envJ xC6 .noArray 1 0 false none none =
      memberLabel 0 1 (modnamePass xC6.spec none).1 xC6.name ++ "\x7b\x7d" ∧
    memberLabel 0 1 (modnamePass xC6.spec none).1 xC6.name ++ "\x7b\x7d" =
      "\"m:c\":\x7b\x7d" :=
  ⟨⟨rfl, rfl, rfl, rfl⟩,
    (C6_null_emission envJ xC6 1 none none rfl rfl).1 yC6c rfl rfl,
    by rfl⟩

/-- A leaf-list instance with no same-name sibling: element `a` bound to
the string leaf-list statement, with one body child `v`. -/
def xC2a : Xml := .mk "a" none .elmnt "" [bodyNode "v"] (some yC1ll) none

/-- The encoded top node holding the singleton leaf-list instance. -/
def xC2top : Xml := .mk "top" none .elmnt "" [xC2a] none none

/-- C2, counterexample.  The claim requires a leaf-list instance with no
same-name same-namespace sibling to be encoded as a single-element
array.  But `array_eval` grants SINGLE_ARRAY only to `list`-bound
elements: the leaf-list singleton is classified NO_ARRAY and the full
encoder output is the bare member `"m:a":"v"`, with no array
brackets. -/
theorem C2_counterexample :
    xC2a.spec = some yC1ll ∧ yC1ll.keyword = .yleafList ∧
    neighborEq xC2a none = false ∧
    array_eval none xC2a none = .noArray ∧
    xml2json_cbuf envJ xC2top 0 = "\x7b\"top\":\x7b\"m:a\":\"v\"\x7d\x7d" := by
  refine ⟨rfl, rfl, rfl, by rfl, ?_⟩
  simp [xml2json_cbuf, xml2json1_cbuf, emitChildren, xC2top, xC2a, yC1ll,
    bodyNode, envJ, Xml.children, Xml.spec, Xml.xtype, Xml.name, Xml.value,
    Xml.pfx, child_type, notAttrNr, array_eval, neighborEq, nsMatch, getXmlns,
    modnamePass, memberLabel, jIndent, jNl, dbgStr, xml2json_encode,
    yang_type2cv, yang2cv_type, YangStmt.restype, YangStmt.keyword,
    YangStmt.modname, jsonQuote, json_str_escape_cdata, leadMatch]
  decide

/-- C2 (amended): the encoder emits every `list`-bound element inside a
JSON array, including the one-element case (SINGLE_ARRAY, whose
emission wraps the member value in square brackets); a `leaf-list`
instance with no same-name same-namespace sibling is classified
NO_ARRAY and emitted as a bare member, not a single-element array —
only repeated leaf-list instances (with equal-name neighbours) are
emitted inside arrays. -/
theorem C2_array_shapes (env : CodecEnv) :
    (∀ (x : Xml) (xprev xnext : Option Xml) (ys : YangStmt),
      x.xtype = XmlType.elmnt → x.spec = some ys → ys.keyword = .ylist →
      neighborEq x xprev = false → neighborEq x xnext = false →
      array_eval xprev x xnext = .singleArray) ∧
    (∀ (x : Xml) (xprev xnext : Option Xml) (ys : YangStmt),
      x.xtype = XmlType.elmnt → x.spec = some ys → ys.keyword = .yleafList →
      neighborEq x xprev = false → neighborEq x xnext = false →
      array_eval xprev x xnext = .noArray) ∧
    (∀ (x b : Xml) (level : Nat) (mod0 : Option String) (yp : Option YangStmt),
      x.xtype = XmlType.elmnt → x.children = [b] → b.xtype = XmlType.body →
      b.children = [] →
      xml2json1_cbuf env x .singleArray level 0 false mod0 yp =
        memberLabel 0 level (modnamePass x.spec mod0).1 x.name ++ "[" ++
          xml2json_encode env b x.spec ++ "]") := by
  refine ⟨?_, ?_, ?_⟩
  · intro x xprev xnext ys hx hs hk hp hn
    unfold array_eval
    rw [if_neg (by simp [hx])]
    simp [hp, hn, hs, hk]
  · intro x xprev xnext ys hx hs hk hp hn
    unfold array_eval
    rw [if_neg (by simp [hx])]
    simp [hp, hn, hs, hk]
  · intro x b level mod0 yp hx hcs hb hbc
    have hct : child_type x = .bodyChild := by
      unfold child_type
      rw [if_neg (by simp [hx])]
      simp [notAttrNr, hcs, hb, hbc]
    have hca : notAttrNr x = 1 := by simp [notAttrNr, hcs, hb]
    have hae : array_eval none b none = .bodyArray := by
      unfold array_eval
      rw [if_pos (by simp [hb])]
    have hctb : child_type b = .na := by
      unfold child_type
      rw [if_pos (by simp [hb])]
    rw [xml2json1_cbuf]
    simp [hct, hcs, hca, hae, hctb, hb, hbc, emitChildren, xml2json1_cbuf,
      dbgStr, jNl, jIndent, notAttrNr]

/-- A `list l` statement with key `k` and order 4. -/
def yC2list : YangStmt := .mk .ylist "l" 4 true ["k"] none 0 "m" []

/-- A list-bound element with a single body child and no same-name
sibling. -/
def xC2l : Xml := .mk "l" none .elmnt "" [bodyNode "1"] (some yC2list) none

/-- Witness for `C2_array_shapes`: the singleton list instance is
classified SINGLE_ARRAY and emitted inside square brackets; the
singleton leaf-list instance is classified NO_ARRAY. -/
theorem C2_array_shapes_witness :
    (xC2l.xtype = XmlType.elmnt ∧ xC2l.spec = some yC2list ∧
      yC2list.keyword = .ylist ∧ neighborEq xC2l none = false) ∧
    array_eval none xC2l none = .singleArray ∧
    array_eval none xC2a none = .noArray ∧
    xml2json1_cbuf envJ xC2l .singleArray 1 0 false none none =
      memberLabel 0 1 (modnamePass xC2l.spec none).1 xC2l.name ++ "[" ++
        xml2json_encode envJ (bodyNode "1") xC2l.spec ++ "]" :=
  ⟨⟨rfl, rfl, rfl, rfl⟩,
    (C2_array_shapes envJ).1 xC2l none none yC2list rfl rfl rfl rfl rfl,
    (C2_array_shapes envJ).2.1 xC2a none none yC1ll rfl rfl rfl rfl rfl,
    (C2_array_shapes envJ).2.2 xC2l (bodyNode "1") 1 none none rfl rfl rfl rfl⟩

end Clixon
